import Mathlib

/-!
# Pattern generation for the cutting-stock solver (pattern.cpp)

A shallow embedding of `src/trunk/src/pattern.cpp`.

Conventions of the embedding.

* `double` values are the finite ones, modelled as rationals: on finite
  doubles `!=` is inequality of the values.  NaN and rounding are outside
  the model.
* `int` fields that hold a count (`nzcnt`) are `Nat`; fields that hold an
  index handed over by another component are `Int`.
* a pointer that may be `NULL` is an `Option`; dereferencing `NULL` and a
  failing `assert` are the two faults a run can end in.
* the arrays `ind` and `val` of a pattern are addressed memory, modelled as
  total functions of the position; the code only ever looks at positions
  `1..nzcnt`.
* the GLPK problem object is a record of the attributes that
  `create_subprob` sets; the simplex and branch-and-cut solves are an
  external procedure passed in as a parameter.
* a GLPK call has its documented effect on valid arguments; the argument
  checks that GLPK makes itself (a row or column ordinal out of range, a
  count below one) are not modelled.
* `get_dp_solution` (knapsack.h) is a parameter: a function of the order widths
  and the roll width that gives the ranked candidate list.
-/

namespace Cspsol

/-- The two ways a run of the modelled functions can end abnormally. -/
inductive Fault
  | null_dereference
  | assertion_failure
  deriving DecidableEq

/-- Modelled from the spec: the status tag of a pattern (declared in
pattern.h); the constructor in pattern.cpp sets it to FRACTIONAL. -/
inductive VarStatus
  | FRACTIONAL
  | INTEGER_FIXED
  deriving DecidableEq

/-- Modelled from the spec: the Pattern record declared in pattern.h, with the
fields that the constructors of pattern.cpp initialise.  Entries occupy
positions `1..nzcnt` of `ind` (master row index) and `val` (count). -/
structure Pattern where
  ind : Nat → Int
  val : Nat → ℚ
  nzcnt : Nat
  var_status : VarStatus
  fixed_status : Bool
  int_sol : ℚ

/-- The loop of `pattern_compare`: starting at position `i`, advance while
`i <= rhs->nzcnt` and the entries at `i` agree; the value is the position at
which the loop stops. -/
def pattern_compare_loop (lhs rhs : Pattern) (i : Nat) : Nat :=
  if h : i ≤ rhs.nzcnt then
    if lhs.ind i ≠ rhs.ind i ∨ lhs.val i ≠ rhs.val i then i
    else pattern_compare_loop lhs rhs (i + 1)
  else i
termination_by rhs.nzcnt + 1 - i
decreasing_by omega

/-- Embedding of `pattern_compare(Pattern * lhs, Pattern * rhs)`.  Both pointers are
dereferenced at once (`lhs->nzcnt != rhs->nzcnt`). -/
def pattern_compare (lhs rhs : Option Pattern) : Except Fault Bool :=
  match lhs, rhs with
  | some l, some r =>
    if l.nzcnt ≠ r.nzcnt then .ok false
    else if pattern_compare_loop l r 1 = r.nzcnt + 1 then .ok true
    else .ok false
  | _, _ => .error Fault.null_dereference

/-- Embedding of `Pattern::check_duplicate(Pattern * pattern)`; the global
`PatternList` is the first argument. -/
def check_duplicate (PatternList : List Pattern) (pattern : Option Pattern) :
    Except Fault Bool :=
  match PatternList with
  | [] => .ok false
  | q :: rest =>
    match pattern_compare (some q) pattern with
    | .error e => .error e
    | .ok true => .ok true
    | .ok false => check_duplicate rest pattern

/-- Two patterns have the same number of entries and the same entry at every
position `1..nzcnt`. -/
def SameEntries (q p : Pattern) : Prop :=
  q.nzcnt = p.nzcnt ∧
    ∀ i, 1 ≤ i → i ≤ p.nzcnt → q.ind i = p.ind i ∧ q.val i = p.val i

/-! ## Order widths and the GLPK problem object -/

/-- Modelled from the spec: the OrderWidth record (declared outside pattern.cpp),
with the four attributes that pattern.cpp reads or writes through
`get_width`, `get_dual_value`, `get_subprob_col_num`, `set_subprob_col_num`
and `get_master_row_num`. -/
structure OrderWidth where
  width : ℚ
  dual_value : ℚ
  subprob_col_num : Int
  master_row_num : Int
  deriving DecidableEq

/-- Optimisation direction of a GLPK problem. -/
inductive ObjDir
  | GLP_MIN
  | GLP_MAX
  deriving DecidableEq

/-- Bound type of a GLPK row or column. -/
inductive BndType
  | GLP_FR
  | GLP_LO
  | GLP_UP
  | GLP_DB
  | GLP_FX
  deriving DecidableEq

/-- Kind of a GLPK column. -/
inductive ColKind
  | GLP_CV
  | GLP_IV
  | GLP_BV
  deriving DecidableEq

/-- A row of a GLPK problem: name, bound type and bounds. -/
structure GlpRow where
  name : String
  bnd : BndType
  lb : ℚ
  ub : ℚ
  deriving DecidableEq

/-- A column of a GLPK problem: kind, bound type and bounds, objective
coefficient, and its stored constraint coefficients as (row, value) pairs. -/
structure GlpCol where
  kind : ColKind
  bnd : BndType
  lb : ℚ
  ub : ℚ
  obj : ℚ
  mat : List (Nat × ℚ)
  deriving DecidableEq

/-- The GLPK problem object, as far as `create_subprob` touches it. -/
structure glp_prob where
  name : String
  dir : ObjDir
  rows : List GlpRow
  cols : List GlpCol
  deriving DecidableEq

/-- The integer-optimiser control parameters that pattern.cpp touches. -/
structure glp_iocp where
  tol_int : ℚ
  tol_obj : ℚ
  deriving DecidableEq

/-- Apply `f` to the element with 1-based ordinal `j`; other ordinals leave the
list as it is. -/
def updAt {α : Type} (f : α → α) : List α → Nat → List α
  | [], _ => []
  | a :: t, 0 => a :: t
  | a :: t, j + 1 => if j = 0 then f a :: t else a :: updAt f t j

/-- GLPK `glp_create_prob`: an empty minimisation problem. -/
def glp_create_prob : glp_prob :=
  { name := "", dir := ObjDir.GLP_MIN, rows := [], cols := [] }

/-- GLPK `glp_init_iocp`: default tolerances 1e-5 and 1e-7. -/
def glp_init_iocp : glp_iocp :=
  { tol_int := 1 / 100000, tol_obj := 1 / 10000000 }

/-- GLPK `glp_set_prob_name`. -/
def glp_set_prob_name (lp : glp_prob) (s : String) : glp_prob :=
  { lp with name := s }

/-- GLPK `glp_set_obj_dir`. -/
def glp_set_obj_dir (lp : glp_prob) (d : ObjDir) : glp_prob :=
  { lp with dir := d }

/-- GLPK `glp_add_rows`: append free rows. -/
def glp_add_rows (lp : glp_prob) (n : Nat) : glp_prob :=
  { lp with rows := lp.rows ++
      List.replicate n { name := "", bnd := BndType.GLP_FR, lb := 0, ub := 0 } }

/-- GLPK `glp_set_row_name`. -/
def glp_set_row_name (lp : glp_prob) (i : Nat) (s : String) : glp_prob :=
  { lp with rows := updAt (fun r => { r with name := s }) lp.rows i }

/-- The bounds GLPK stores for a bound type: the bound that the type does not use
is stored as zero, and a fixed bound stores `lb` twice. -/
def stored_bnds (t : BndType) (lb ub : ℚ) : ℚ × ℚ :=
  match t with
  | BndType.GLP_FR => (0, 0)
  | BndType.GLP_LO => (lb, 0)
  | BndType.GLP_UP => (0, ub)
  | BndType.GLP_DB => (lb, ub)
  | BndType.GLP_FX => (lb, lb)

/-- GLPK `glp_set_row_bnds`. -/
def glp_set_row_bnds (lp : glp_prob) (i : Nat) (t : BndType) (lb ub : ℚ) : glp_prob :=
  let b := stored_bnds t lb ub
  { lp with rows := updAt (fun r => { r with bnd := t, lb := b.1, ub := b.2 }) lp.rows i }

/-- GLPK `glp_get_num_cols`. -/
def glp_get_num_cols (lp : glp_prob) : Nat := lp.cols.length

/-- GLPK `glp_add_cols`: append continuous columns fixed at zero, with no
objective or constraint coefficient. -/
def glp_add_cols (lp : glp_prob) (n : Nat) : glp_prob :=
  { lp with cols := lp.cols ++
      List.replicate n { kind := ColKind.GLP_CV, bnd := BndType.GLP_FX, lb := 0, ub := 0,
                         obj := 0, mat := [] } }

/-- GLPK `glp_set_col_kind`. -/
def glp_set_col_kind (lp : glp_prob) (j : Nat) (k : ColKind) : glp_prob :=
  { lp with cols := updAt (fun c => { c with kind := k }) lp.cols j }

/-- GLPK `glp_set_col_bnds`. -/
def glp_set_col_bnds (lp : glp_prob) (j : Nat) (t : BndType) (lb ub : ℚ) : glp_prob :=
  let b := stored_bnds t lb ub
  { lp with cols := updAt (fun c => { c with bnd := t, lb := b.1, ub := b.2 }) lp.cols j }

/-- GLPK `glp_set_obj_coef`. -/
def glp_set_obj_coef (lp : glp_prob) (j : Nat) (coef : ℚ) : glp_prob :=
  { lp with cols := updAt (fun c => { c with obj := coef }) lp.cols j }

/-- GLPK `glp_set_mat_col`: replace the constraint coefficients of column `j`;
zero coefficients are not stored. -/
def glp_set_mat_col (lp : glp_prob) (j : Nat) (entries : List (Nat × ℚ)) : glp_prob :=
  let stored := entries.filter (fun e => e.2 ≠ 0)
  { lp with cols := updAt (fun c => { c with mat := stored }) lp.cols j }

/-- The coefficient of row `i` in a column: the stored value, or zero. -/
def col_coef (c : GlpCol) (i : Nat) : ℚ :=
  match c.mat.find? (fun e => e.1 = i) with
  | some e => e.2
  | none => 0

/-- The external solve of pattern.cpp: `glp_simplex` followed by `glp_intopt`
with the given parameters.  The value is `none` when one of the three
assertions on the solver statuses fails, and otherwise the post-solve value of
every column by ordinal (`glp_mip_col_val`). -/
abbrev Solver := glp_prob → glp_iocp → Option (Int → ℚ)

/-! ## create_subprob -/

/-- The loop of `create_subprob` over the order widths, from column `col_ind`. -/
def create_subprob_loop (lp : glp_prob) (col_ind : Nat) :
    List OrderWidth → glp_prob × List OrderWidth
  | [] => (lp, [])
  | ow :: rest =>
    let lp1 := glp_set_col_kind lp col_ind ColKind.GLP_IV
    let lp2 := glp_set_col_bnds lp1 col_ind BndType.GLP_LO 0 0
    let lp3 := glp_set_obj_coef lp2 col_ind ow.dual_value
    let lp4 := glp_set_mat_col lp3 col_ind [(1, ow.width)]
    let ow1 := { ow with subprob_col_num := (col_ind : Int) }
    let r := create_subprob_loop lp4 (col_ind + 1) rest
    (r.1, ow1 :: r.2)

/-- Embedding of `Pattern::create_subprob(lp, ow_set, alternate_sol)`; the global
`max_pattern_width` is the first argument.  The value is the problem and the
order widths as the call leaves them. -/
def create_subprob (max_pattern_width : ℚ) (lp : glp_prob) (ow_set : List OrderWidth)
    (alternate_sol : Bool) : glp_prob × List OrderWidth :=
  let lp1 := glp_set_prob_name lp "SubProb"
  let lp2 := glp_set_obj_dir lp1 ObjDir.GLP_MAX
  let lp3 := glp_add_rows lp2 1
  let lp4 := glp_set_row_name lp3 1 "PatternWidthConstraint"
  let lp5 :=
    if alternate_sol = true then
      glp_set_row_bnds lp4 1 BndType.GLP_UP 0 (max_pattern_width + 1 / 2)
    else
      glp_set_row_bnds lp4 1 BndType.GLP_UP 0 max_pattern_width
  let col_ind := glp_get_num_cols lp5 + 1
  let lp6 := glp_add_cols lp5 ow_set.length
  create_subprob_loop lp6 col_ind ow_set

/-! ## generate_pattern -/

/-- One call of the external solve: the problem and the parameters handed over. -/
structure SolveCall where
  lp : glp_prob
  parm : glp_iocp
  deriving DecidableEq

/-- What a call of `generate_pattern` leaves behind: the returned pointer, the
order widths (their subproblem column numbers rewritten), and the solve made. -/
structure Generated where
  pattern : Option Pattern
  ow_set : List OrderWidth
  call : SolveCall

/-- First loop of `generate_pattern`: the number of columns `1..ccnt` with a
non-zero value. -/
def count_nonzero (x : Int → ℚ) (ccnt : Nat) : Nat :=
  (List.range' 1 ccnt).foldl
    (fun (nzcnt col_ind : Nat) => if x (col_ind : Int) ≠ 0 then nzcnt + 1 else nzcnt) 0

/-- Second loop of `generate_pattern`: walk the order widths, writing the master
row number and the value of each non-zero column at position `i`.  The value
is the final `i` and the two arrays. -/
def fill_loop (x : Int → ℚ) :
    List OrderWidth → Nat → (Nat → Int) → (Nat → ℚ) → Nat × (Nat → Int) × (Nat → ℚ)
  | [], i, ind, val => (i, ind, val)
  | ow :: rest, i, ind, val =>
    let value := x ow.subprob_col_num
    if value ≠ 0 then
      fill_loop x rest (i + 1) (Function.update ind i ow.master_row_num)
        (Function.update val i value)
    else
      fill_loop x rest i ind val

/-- Embedding of `Pattern::generate_pattern(ow_set, iter_count, tol_flag)`.  Fresh
arrays are modelled as zero-filled. -/
def generate_pattern (max_pattern_width : ℚ) (solve : Solver)
    (ow_set : List OrderWidth) (_iter_count : Int) (tol_flag : Bool) :
    Except Fault Generated :=
  let subp_lp := glp_create_prob
  let parm0 := glp_init_iocp
  let parm := if tol_flag = true then { parm0 with tol_obj := -parm0.tol_obj } else parm0
  let built :=
    if tol_flag = true then create_subprob max_pattern_width subp_lp ow_set true
    else create_subprob max_pattern_width subp_lp ow_set false
  match solve built.1 parm with
  | none => .error Fault.assertion_failure
  | some x =>
    let ccnt := glp_get_num_cols built.1
    let nzcnt := count_nonzero x ccnt
    if nzcnt = 0 then
      .ok { pattern := none, ow_set := built.2, call := { lp := built.1, parm := parm } }
    else
      let filled := fill_loop x built.2 1 (fun _ => 0) (fun _ => 0)
      .ok { pattern := some { ind := filled.2.1, val := filled.2.2, nzcnt := nzcnt,
                              var_status := VarStatus.FRACTIONAL, fixed_status := false,
                              int_sol := 0 },
            ow_set := built.2, call := { lp := built.1, parm := parm } }

/-! ## get_new_pattern -/

/-- The globals of pattern.cpp and the two flags it imports. -/
structure Globals where
  PatternList : List Pattern
  max_pattern_width : ℚ
  workaround_flag : Bool
  subintopt_flag : Bool

/-- What a call of `get_new_pattern` leaves behind: the returned pointer, the
order widths, the registry, and the solves made, in order. -/
structure Outcome where
  new_pat : Option Pattern
  ow_set : List OrderWidth
  PatternList : List Pattern
  solves : List SolveCall

/-- The scan of the DP branch of `get_new_pattern` over the candidate list. -/
def dp_scan (PatternList : List Pattern) : List Pattern → Except Fault (Option Pattern)
  | [] => .ok none
  | cand :: rest =>
    match check_duplicate PatternList (some cand) with
    | .error e => .error e
    | .ok true => dp_scan PatternList rest
    | .ok false => .ok (some cand)

/-- Embedding of `Pattern::get_new_pattern(ow_set, iter_count)`.  The globals, the
external solve and `get_dp_solution` (knapsack.h) are arguments. -/
def get_new_pattern (g : Globals) (solve : Solver)
    (get_dp_solution : List OrderWidth → ℚ → List Pattern)
    (ow_set : List OrderWidth) (iter_count : Int) : Except Fault Outcome :=
  if g.subintopt_flag = false then
    match dp_scan g.PatternList (get_dp_solution ow_set g.max_pattern_width) with
    | .error e => .error e
    | .ok r => .ok { new_pat := r, ow_set := ow_set, PatternList := g.PatternList,
                     solves := [] }
  else
    match generate_pattern g.max_pattern_width solve ow_set iter_count false with
    | .error e => .error e
    | .ok g1 =>
      match check_duplicate g.PatternList g1.pattern with
      | .error e => .error e
      | .ok d1 =>
        let second : Except Fault Generated × List SolveCall :=
          if d1 = true ∧ g.workaround_flag = true then
            match generate_pattern g.max_pattern_width solve g1.ow_set iter_count true with
            | .error e => (.error e, [g1.call])
            | .ok g2 => (.ok g2, [g1.call, g2.call])
          else (.ok g1, [g1.call])
        match second.1 with
        | .error e => .error e
        | .ok cur =>
          match check_duplicate g.PatternList cur.pattern with
          | .error e => .error e
          | .ok d2 =>
            .ok { new_pat := if d2 = true then none else cur.pattern,
                  ow_set := cur.ow_set, PatternList := g.PatternList,
                  solves := second.2 }

/-! ## Quantities the claims speak of -/

/-- The entries of a pattern, positions `1..nzcnt`, as (row index, count) pairs. -/
def entries (p : Pattern) : List (Int × ℚ) :=
  (List.range p.nzcnt).map (fun k => (p.ind (k + 1), p.val (k + 1)))

/-- Two patterns are equal as multisets of (row index, count) pairs. -/
def PermEqual (a b : Pattern) : Prop := (entries a).Perm (entries b)

/-- The width of the order width with the given master row index (zero when there
is none). -/
def width_of_row (ow_set : List OrderWidth) (row : Int) : ℚ :=
  match ow_set.find? (fun ow => ow.master_row_num = row) with
  | some ow => ow.width
  | none => 0

/-- The total width of a pattern: the sum over its entries of count × width. -/
def pattern_width (ow_set : List OrderWidth) (p : Pattern) : ℚ :=
  ((entries p).map (fun e => e.2 * width_of_row ow_set e.1)).sum

/-- The activity of row `i` of a problem under column values `x`: the sum over the
columns, numbered from 1, of coefficient × value. -/
def row_activity (lp : glp_prob) (x : Int → ℚ) (i : Nat) : ℚ :=
  ((lp.cols.enumFrom 1).map (fun jc => col_coef jc.2 i * x (jc.1 : Int))).sum

/-- The column values satisfy the upper bound of row 1. -/
def capacity_ok (lp : glp_prob) (x : Int → ℚ) : Prop :=
  match lp.rows[0]? with
  | some r => row_activity lp x 1 ≤ r.ub
  | none => True

/-- The column that the loop of `create_subprob` leaves for an order width: an
integer column with lower bound zero, the dual value as objective coefficient
and the width as its only constraint coefficient, in row 1. -/
def subprob_col (ow : OrderWidth) : GlpCol :=
  { kind := ColKind.GLP_IV, bnd := BndType.GLP_LO, lb := 0, ub := 0, obj := ow.dual_value,
    mat := [((1 : Nat), ow.width)].filter (fun e => e.2 ≠ 0) }

/-- The order widths with subproblem column numbers `c, c+1, ...` in iteration
order. -/
def renumber (ows : List OrderWidth) (c : Nat) : List OrderWidth :=
  (ows.enumFrom c).map (fun ko => { ko.2 with subprob_col_num := (ko.1 : Int) })

/-- The capacity row that `create_subprob` leaves on a fresh problem. -/
def capacity_row (max_pattern_width : ℚ) (alternate_sol : Bool) : GlpRow :=
  { name := "PatternWidthConstraint", bnd := BndType.GLP_UP, lb := 0,
    ub := if alternate_sol = true then max_pattern_width + 1 / 2 else max_pattern_width }

/-- The solve that `generate_pattern` makes for the given order widths and flag:
the subproblem built on a fresh problem object, and the default parameters
with `tol_obj` negated when the flag is set. -/
def subprob_call (max_pattern_width : ℚ) (ow_set : List OrderWidth) (tol_flag : Bool) :
    SolveCall :=
  { lp := (create_subprob max_pattern_width glp_create_prob ow_set tol_flag).1,
    parm := if tol_flag = true then { glp_init_iocp with tol_obj := -glp_init_iocp.tol_obj }
            else glp_init_iocp }

/-- The entries that the column values `x` select: in iteration order, with the
k-th order width on column k, the pair (master row index, column value) of
every order width whose column value is non-zero. -/
def selected_entries (x : Int → ℚ) (ow_set : List OrderWidth) : List (Int × ℚ) :=
  ((ow_set.enumFrom 1).filter (fun ko => x (ko.1 : Int) ≠ 0)).map
    (fun ko => (ko.2.master_row_num, x (ko.1 : Int)))

/-- No two patterns of the registry have the same entries at the same positions. -/
def RegistryDistinct (reg : List Pattern) : Prop :=
  reg.Pairwise (fun a b => ¬ SameEntries a b)

/-- No two patterns of the registry are equal as multisets of (row index, count)
pairs. -/
def RegistryPermDistinct (reg : List Pattern) : Prop :=
  reg.Pairwise (fun a b => ¬ PermEqual a b)

/-- A pattern lists its entries in canonical order: strictly increasing row
index. -/
def Canonical (p : Pattern) : Prop :=
  (entries p).Pairwise (fun e1 e2 => e1.1 < e2.1)

/-! ## Sample inputs -/

/-- Two order widths: width 3 with dual 1 on master row 1, width 7 with dual 3 on
master row 2; no subproblem column assigned yet. -/
def sample_ows : List OrderWidth :=
  [{ width := 3, dual_value := 1, subprob_col_num := -1, master_row_num := 1 },
   { width := 7, dual_value := 3, subprob_col_num := -1, master_row_num := 2 }]

/-- The pattern with entries (row 1, count 1), (row 2, count 1). -/
def sample_pat_12 : Pattern :=
  { ind := fun i => if i = 1 then 1 else if i = 2 then 2 else 0,
    val := fun i => if i = 1 then 1 else if i = 2 then 1 else 0,
    nzcnt := 2, var_status := VarStatus.FRACTIONAL, fixed_status := false, int_sol := 0 }

/-- The pattern with entries (row 2, count 1), (row 1, count 1). -/
def sample_pat_21 : Pattern :=
  { ind := fun i => if i = 1 then 2 else if i = 2 then 1 else 0,
    val := fun i => if i = 1 then 1 else if i = 2 then 1 else 0,
    nzcnt := 2, var_status := VarStatus.FRACTIONAL, fixed_status := false, int_sol := 0 }

/-- The same two order widths with both dual values zero. -/
def sample_ows_flat : List OrderWidth :=
  [{ width := 3, dual_value := 0, subprob_col_num := -1, master_row_num := 1 },
   { width := 7, dual_value := 0, subprob_col_num := -1, master_row_num := 2 }]

/-- Column values: one unit on column 1 and one on column 2. -/
def sample_values_11 : Int → ℚ := fun j => if j = 1 then 1 else if j = 2 then 1 else 0

/-- A solve that ends with one unit on each of the columns 1 and 2. -/
def sample_solve_11 : Solver := fun _ _ => some sample_values_11

/-- A solve that ends with every column at zero. -/
def sample_solve_zero : Solver := fun _ _ => some (fun _ => 0)

/-- The pattern with the single entry (row 1, count 3). -/
def sample_pat_1 : Pattern :=
  { ind := fun i => if i = 1 then 1 else 0,
    val := fun i => if i = 1 then 3 else 0,
    nzcnt := 1, var_status := VarStatus.FRACTIONAL, fixed_status := false, int_sol := 0 }

/-- A solve that ends with one unit on each of the columns 1 and 2 under the
default tolerance, and with every column at zero once `tol_obj` is negative. -/
def sample_solve_alt : Solver :=
  fun _ parm => if parm.tol_obj < 0 then some (fun _ => 0) else some sample_values_11

/-- A DP solver whose only candidate is the pattern (row 1, 1), (row 2, 1). -/
def sample_dp_canon : List OrderWidth → ℚ → List Pattern :=
  fun _ _ => [sample_pat_12]

/-- A DP solver that ranks the two sample patterns. -/
def sample_dp : List OrderWidth → ℚ → List Pattern :=
  fun _ _ => [sample_pat_21, sample_pat_12]

/-- Globals with roll width 10. -/
def sample_globals (reg : List Pattern) (workaround subintopt : Bool) : Globals :=
  { PatternList := reg, max_pattern_width := 10, workaround_flag := workaround,
    subintopt_flag := subintopt }

/-! ## The comparison loop -/

theorem pattern_compare_loop_le (l r : Pattern) (i : Nat) (hi : i ≤ r.nzcnt + 1) :
    pattern_compare_loop l r i ≤ r.nzcnt + 1 := by
  induction i using pattern_compare_loop.induct l r with
  | case1 i h hne =>
    rw [pattern_compare_loop]; simp only [h, hne, dite_true, if_true]; omega
  | case2 i h hne ih =>
    rw [pattern_compare_loop]; simp only [h, hne, dite_true, if_false]
    exact ih (by omega)
  | case3 i h =>
    rw [pattern_compare_loop]; simp only [h, dite_false]; exact hi

theorem pattern_compare_loop_end (l r : Pattern) (i : Nat) (hi : i ≤ r.nzcnt + 1) :
    pattern_compare_loop l r i = r.nzcnt + 1 ↔
      ∀ j, i ≤ j → j ≤ r.nzcnt → l.ind j = r.ind j ∧ l.val j = r.val j := by
  induction i using pattern_compare_loop.induct l r with
  | case1 i h hne =>
    rw [pattern_compare_loop]; simp only [h, hne, dite_true, if_true]
    constructor
    · intro e; omega
    · intro hall
      have := hall i le_rfl h
      rcases hne with h1 | h1
      · exact absurd this.1 h1
      · exact absurd this.2 h1
  | case2 i h hne ih =>
    rw [pattern_compare_loop]; simp only [h, hne, dite_true, if_false]
    rw [ih (by omega)]
    have hi0 : l.ind i = r.ind i ∧ l.val i = r.val i := by
      constructor
      · by_contra hc; exact hne (Or.inl hc)
      · by_contra hc; exact hne (Or.inr hc)
    constructor
    · intro hall j hj hjn
      rcases Nat.eq_or_lt_of_le hj with e | e
      · subst e; exact hi0
      · exact hall j e hjn
    · intro hall j hj hjn
      exact hall j (by omega) hjn
  | case3 i h =>
    rw [pattern_compare_loop]; simp only [h, dite_false]
    constructor
    · intro _ j hj hjn; omega
    · intro _; omega

theorem pattern_compare_some (l r : Pattern) :
    ∃ b, pattern_compare (some l) (some r) = .ok b ∧ (b = true ↔ SameEntries l r) := by
  unfold pattern_compare SameEntries
  by_cases hn : l.nzcnt = r.nzcnt
  · by_cases hl : pattern_compare_loop l r 1 = r.nzcnt + 1
    · refine ⟨true, by simp [hn, hl], ?_⟩
      simp only [true_iff]
      exact ⟨hn, (pattern_compare_loop_end l r 1 (by omega)).1 hl⟩
    · refine ⟨false, by simp [hn, hl], ?_⟩
      simp only [Bool.false_eq_true, false_iff]
      intro hs
      exact hl ((pattern_compare_loop_end l r 1 (by omega)).2 hs.2)
  · refine ⟨false, by simp [hn], ?_⟩
    simp only [Bool.false_eq_true, false_iff]
    intro hs; exact hn hs.1

/-! ## Duplicate detection -/

theorem pattern_compare_true_iff (l r : Pattern) :
    pattern_compare (some l) (some r) = .ok true ↔ SameEntries l r := by
  obtain ⟨b, hb, hiff⟩ := pattern_compare_some l r
  rw [hb]
  cases b <;> simp_all

theorem pattern_compare_false_iff (l r : Pattern) :
    pattern_compare (some l) (some r) = .ok false ↔ ¬ SameEntries l r := by
  obtain ⟨b, hb, hiff⟩ := pattern_compare_some l r
  rw [hb]
  cases b <;> simp_all

theorem SameEntries.refl (a : Pattern) : SameEntries a a :=
  ⟨rfl, fun _ _ _ => ⟨rfl, rfl⟩⟩

theorem SameEntries.symm {a b : Pattern} (h : SameEntries a b) : SameEntries b a :=
  ⟨h.1.symm, fun i h1 h2 =>
    ⟨(h.2 i h1 (h.1 ▸ h2)).1.symm, (h.2 i h1 (h.1 ▸ h2)).2.symm⟩⟩

theorem check_duplicate_true_iff (reg : List Pattern) (p : Pattern) :
    check_duplicate reg (some p) = .ok true ↔ ∃ q ∈ reg, SameEntries q p := by
  induction reg with
  | nil => simp [check_duplicate]
  | cons q rest ih =>
    obtain ⟨b, hb, hiff⟩ := pattern_compare_some q p
    cases b with
    | true =>
      have hs : SameEntries q p := hiff.1 rfl
      simp only [check_duplicate, hb, true_iff]
      exact ⟨q, List.mem_cons_self _ _, hs⟩
    | false =>
      have hs : ¬ SameEntries q p := fun h => by simpa using hiff.2 h
      simp only [check_duplicate, hb, ih, List.mem_cons, exists_eq_or_imp, hs, false_or]

theorem check_duplicate_total (reg : List Pattern) (p : Pattern) :
    check_duplicate reg (some p) = .ok true ∨ check_duplicate reg (some p) = .ok false := by
  induction reg with
  | nil => simp [check_duplicate]
  | cons q rest ih =>
    obtain ⟨b, hb, _⟩ := pattern_compare_some q p
    cases b with
    | true => left; simp [check_duplicate, hb]
    | false => simpa [check_duplicate, hb] using ih

theorem check_duplicate_false_iff (reg : List Pattern) (p : Pattern) :
    check_duplicate reg (some p) = .ok false ↔ ¬ ∃ q ∈ reg, SameEntries q p := by
  rw [← check_duplicate_true_iff]
  rcases check_duplicate_total reg p with h | h <;> simp [h]

theorem check_duplicate_nil (pattern : Option Pattern) :
    check_duplicate [] pattern = .ok false := by
  simp [check_duplicate]

theorem check_duplicate_null (q : Pattern) (rest : List Pattern) :
    check_duplicate (q :: rest) none = .error Fault.null_dereference := by
  simp [check_duplicate, pattern_compare]

/-- C1: for every registry and every non-null pattern `p`, `check_duplicate`
returns, and it returns true exactly when some registered pattern has the same
`nzcnt` as `p` and the same `ind` and `val` at every position `1..nzcnt`; on
an empty registry it returns false. -/
theorem check_duplicate_iff (PatternList : List Pattern) (p : Pattern) :
    (check_duplicate PatternList (some p) = .ok true ∨
      check_duplicate PatternList (some p) = .ok false) ∧
    (check_duplicate PatternList (some p) = .ok true ↔
      ∃ q ∈ PatternList, q.nzcnt = p.nzcnt ∧
        ∀ i, 1 ≤ i → i ≤ p.nzcnt → q.ind i = p.ind i ∧ q.val i = p.val i) ∧
    check_duplicate [] (some p) = .ok false :=
  ⟨check_duplicate_total PatternList p, check_duplicate_true_iff PatternList p,
    check_duplicate_nil (some p)⟩

/-- C8: `pattern_compare` gives the same answer with its arguments swapped, it
answers true on a pattern compared with itself, and so `check_duplicate`
answers true on every pattern that is in the registry. -/
theorem pattern_compare_symm_refl (A B : Pattern) :
    pattern_compare (some A) (some B) = pattern_compare (some B) (some A) ∧
    pattern_compare (some A) (some A) = .ok true ∧
    ∀ PatternList : List Pattern, A ∈ PatternList →
      check_duplicate PatternList (some A) = .ok true := by
  refine ⟨?_, (pattern_compare_true_iff A A).2 (SameEntries.refl A), ?_⟩
  · obtain ⟨b, hb, hiff⟩ := pattern_compare_some A B
    cases b with
    | true =>
      rw [hb, (pattern_compare_true_iff B A).2 (hiff.1 rfl).symm]
    | false =>
      have hs : ¬ SameEntries A B := fun h => by simpa using hiff.2 h
      rw [hb, (pattern_compare_false_iff B A).2 (fun h => hs h.symm)]
  · intro reg hmem
    exact (check_duplicate_true_iff reg A).2 ⟨A, hmem, SameEntries.refl A⟩

/-! ## The DP branch of get_new_pattern -/

theorem dp_scan_first (reg pre : List Pattern) (c : Pattern) (post : List Pattern)
    (hpre : ∀ d ∈ pre, check_duplicate reg (some d) = .ok true)
    (hc : check_duplicate reg (some c) = .ok false) :
    dp_scan reg (pre ++ c :: post) = .ok (some c) := by
  induction pre with
  | nil => simp [dp_scan, hc]
  | cons d pre ih =>
    have hd := hpre d (List.mem_cons_self _ _)
    simp only [List.cons_append, dp_scan, hd]
    exact ih (fun e he => hpre e (List.mem_cons_of_mem _ he))

theorem dp_scan_cases (reg cands : List Pattern) :
    (dp_scan reg cands = .ok none ∧
      ∀ d ∈ cands, check_duplicate reg (some d) = .ok true) ∨
    ∃ pre c post, cands = pre ++ c :: post ∧
      (∀ d ∈ pre, check_duplicate reg (some d) = .ok true) ∧
      check_duplicate reg (some c) = .ok false ∧
      dp_scan reg cands = .ok (some c) := by
  induction cands with
  | nil => left; simp [dp_scan]
  | cons d rest ih =>
    rcases check_duplicate_total reg d with hd | hd
    · rcases ih with ⟨h1, h2⟩ | ⟨pre, c, post, h1, h2, h3, h4⟩
      · left
        refine ⟨by simp [dp_scan, hd, h1], ?_⟩
        intro e he
        rcases List.mem_cons.1 he with rfl | he
        · exact hd
        · exact h2 e he
      · right
        refine ⟨d :: pre, c, post, by simp [h1], ?_, h3, by simp [dp_scan, hd, h4]⟩
        intro e he
        rcases List.mem_cons.1 he with rfl | he
        · exact hd
        · exact h2 e he
    · right
      exact ⟨[], d, rest, rfl, by simp, hd, by simp [dp_scan, hd]⟩

theorem get_new_pattern_dp_eq (g : Globals) (solve : Solver)
    (get_dp_solution : List OrderWidth → ℚ → List Pattern)
    (ow_set : List OrderWidth) (iter_count : Int) (hflag : g.subintopt_flag = false)
    (r : Option Pattern)
    (hr : dp_scan g.PatternList (get_dp_solution ow_set g.max_pattern_width) = .ok r) :
    get_new_pattern g solve get_dp_solution ow_set iter_count =
      .ok { new_pat := r, ow_set := ow_set, PatternList := g.PatternList, solves := [] } := by
  simp [get_new_pattern, hflag, hr]

/-- C4: with the DP strategy selected, `get_new_pattern` returns; it returns the
first candidate of the list of `get_dp_solution` for which `check_duplicate`
is false, and it returns null exactly when the list is empty or
`check_duplicate` is true on every candidate. -/
theorem get_new_pattern_dp (g : Globals) (solve : Solver)
    (get_dp_solution : List OrderWidth → ℚ → List Pattern)
    (ow_set : List OrderWidth) (iter_count : Int) (hflag : g.subintopt_flag = false) :
    ∃ o, get_new_pattern g solve get_dp_solution ow_set iter_count = .ok o ∧
      (∀ pre c post, get_dp_solution ow_set g.max_pattern_width = pre ++ c :: post →
        (∀ d ∈ pre, check_duplicate g.PatternList (some d) = .ok true) →
        check_duplicate g.PatternList (some c) = .ok false → o.new_pat = some c) ∧
      (o.new_pat = none ↔
        (get_dp_solution ow_set g.max_pattern_width = [] ∨
          ∀ d ∈ get_dp_solution ow_set g.max_pattern_width,
            check_duplicate g.PatternList (some d) = .ok true)) := by
  rcases dp_scan_cases g.PatternList (get_dp_solution ow_set g.max_pattern_width) with
    ⟨h1, h2⟩ | ⟨pre, c, post, h1, h2, h3, h4⟩
  · refine ⟨_, get_new_pattern_dp_eq g solve get_dp_solution ow_set iter_count hflag _ h1,
      ?_, ?_⟩
    · intro pre c post hdec _ hc
      have := h2 c (by rw [hdec]; simp)
      rw [hc] at this
      cases this
    · simp only [true_iff]
      exact Or.inr h2
  · refine ⟨_, get_new_pattern_dp_eq g solve get_dp_solution ow_set iter_count hflag _ h4,
      ?_, ?_⟩
    · intro pre2 c2 post2 hdec hpre2 hc2
      have := dp_scan_first g.PatternList pre2 c2 post2 hpre2 hc2
      rw [← hdec, h4] at this
      simpa using this
    · constructor
      · intro hnone; cases hnone
      · rintro (hnil | hall)
        · rw [h1] at hnil; simp at hnil
        · have := hall c (by rw [h1]; simp)
          rw [h3] at this
          cases this

/-! ## create_subprob -/

theorem updAt_append_cons {α : Type} (f : α → α) (pre : List α) (c : α) (suf : List α) :
    updAt f (pre ++ c :: suf) (pre.length + 1) = pre ++ f c :: suf := by
  induction pre with
  | nil => simp [updAt]
  | cons a pre ih =>
    simp only [List.cons_append, List.length_cons, updAt]
    simp [ih]

theorem create_subprob_loop_spec (ows : List OrderWidth) :
    ∀ (lp : glp_prob) (pre : List GlpCol),
      lp.cols = pre ++ List.replicate ows.length
        { kind := ColKind.GLP_CV, bnd := BndType.GLP_FX, lb := 0, ub := 0, obj := 0,
          mat := [] } →
      create_subprob_loop lp (pre.length + 1) ows =
        ({ lp with cols := pre ++ ows.map subprob_col }, renumber ows (pre.length + 1)) := by
  induction ows with
  | nil =>
    intro lp pre h
    simp only [List.length_nil, List.replicate_zero, List.append_nil] at h
    simp [create_subprob_loop, renumber, ← h]
  | cons ow rest ih =>
    intro lp pre h
    simp only [List.length_cons, List.replicate_succ] at h
    have step := ih
      (glp_set_mat_col (glp_set_obj_coef (glp_set_col_bnds
        (glp_set_col_kind lp (pre.length + 1) ColKind.GLP_IV) (pre.length + 1)
        BndType.GLP_LO 0 0) (pre.length + 1) ow.dual_value) (pre.length + 1)
        [(1, ow.width)])
      (pre ++ [subprob_col ow])
      (by
        simp [glp_set_mat_col, glp_set_obj_coef, glp_set_col_bnds, glp_set_col_kind, h,
          updAt_append_cons, stored_bnds, subprob_col])
    simp only [List.length_append, List.length_singleton] at step
    simp only [create_subprob_loop, step, renumber, List.enumFrom_cons, List.map_cons,
      List.append_assoc, List.singleton_append]
    simp [glp_set_mat_col, glp_set_obj_coef, glp_set_col_bnds, glp_set_col_kind]

theorem create_subprob_fresh_eq (max_pattern_width : ℚ) (ow_set : List OrderWidth)
    (alternate_sol : Bool) :
    create_subprob max_pattern_width glp_create_prob ow_set alternate_sol =
      ({ name := "SubProb", dir := ObjDir.GLP_MAX,
         rows := [capacity_row max_pattern_width alternate_sol],
         cols := ow_set.map subprob_col }, renumber ow_set 1) := by
  unfold create_subprob
  have h := create_subprob_loop_spec ow_set
    (glp_add_cols
      (if alternate_sol = true then
        glp_set_row_bnds (glp_set_row_name (glp_add_rows (glp_set_obj_dir
          (glp_set_prob_name glp_create_prob "SubProb") ObjDir.GLP_MAX) 1) 1
          "PatternWidthConstraint") 1 BndType.GLP_UP 0 (max_pattern_width + 1 / 2)
      else
        glp_set_row_bnds (glp_set_row_name (glp_add_rows (glp_set_obj_dir
          (glp_set_prob_name glp_create_prob "SubProb") ObjDir.GLP_MAX) 1) 1
          "PatternWidthConstraint") 1 BndType.GLP_UP 0 max_pattern_width)
      ow_set.length) []
    (by cases alternate_sol <;>
        simp [glp_add_cols, glp_set_row_bnds, glp_set_row_name, glp_add_rows,
          glp_set_obj_dir, glp_set_prob_name, glp_create_prob])
  simp only [List.length_nil, Nat.zero_add, List.nil_append] at h
  have hc : glp_get_num_cols
      (if alternate_sol = true then
        glp_set_row_bnds (glp_set_row_name (glp_add_rows (glp_set_obj_dir
          (glp_set_prob_name glp_create_prob "SubProb") ObjDir.GLP_MAX) 1) 1
          "PatternWidthConstraint") 1 BndType.GLP_UP 0 (max_pattern_width + 1 / 2)
      else
        glp_set_row_bnds (glp_set_row_name (glp_add_rows (glp_set_obj_dir
          (glp_set_prob_name glp_create_prob "SubProb") ObjDir.GLP_MAX) 1) 1
          "PatternWidthConstraint") 1 BndType.GLP_UP 0 max_pattern_width) + 1 = 1 := by
    cases alternate_sol <;>
      simp [glp_get_num_cols, glp_set_row_bnds, glp_set_row_name, glp_add_rows,
        glp_set_obj_dir, glp_set_prob_name, glp_create_prob]
  simp only [hc, h]
  cases alternate_sol <;>
    simp [glp_add_cols, glp_set_row_bnds, glp_set_row_name, glp_add_rows,
      glp_set_obj_dir, glp_set_prob_name, glp_create_prob, capacity_row, updAt,
      stored_bnds]

/-- C9: on an empty problem, `create_subprob` builds a maximisation problem with
exactly one row, of type upper bound, whose bound is `max_pattern_width`, or
`max_pattern_width + 0.5` when `alternate_sol` is set, and exactly one
column per order width; the order width at position `k` (counted from zero)
gets the integer column `k + 1` with lower bound zero, its dual value as
objective coefficient and its width as coefficient of row 1, and has its
subproblem column index set to `k + 1`. -/
theorem create_subprob_fresh (max_pattern_width : ℚ) (ow_set : List OrderWidth)
    (alternate_sol : Bool) :
    (create_subprob max_pattern_width glp_create_prob ow_set alternate_sol).1.dir
      = ObjDir.GLP_MAX ∧
    (∃ row, (create_subprob max_pattern_width glp_create_prob ow_set alternate_sol).1.rows
        = [row] ∧ row.bnd = BndType.GLP_UP ∧
      row.ub = if alternate_sol = true then max_pattern_width + 1 / 2
               else max_pattern_width) ∧
    (create_subprob max_pattern_width glp_create_prob ow_set alternate_sol).1.cols.length
      = ow_set.length ∧
    (create_subprob max_pattern_width glp_create_prob ow_set alternate_sol).2.length
      = ow_set.length ∧
    ∀ (k : Nat) (w : OrderWidth), ow_set[k]? = some w →
      ∃ c, (create_subprob max_pattern_width glp_create_prob ow_set alternate_sol).1.cols[k]?
          = some c ∧
        c.kind = ColKind.GLP_IV ∧ c.bnd = BndType.GLP_LO ∧ c.lb = 0 ∧
        c.obj = w.dual_value ∧ col_coef c 1 = w.width ∧
        (create_subprob max_pattern_width glp_create_prob ow_set alternate_sol).2[k]?
          = some { w with subprob_col_num := (k : Int) + 1 } := by
  rw [create_subprob_fresh_eq]
  refine ⟨rfl, ⟨_, rfl, rfl, rfl⟩, by simp, by simp [renumber], ?_⟩
  intro k w hk
  refine ⟨subprob_col w, by simp [hk], rfl, rfl, rfl, rfl, ?_, ?_⟩
  · by_cases hw : w.width = 0
    · simp [col_coef, subprob_col, hw]
    · simp [col_coef, subprob_col, hw, List.filter]
  · simp [renumber, List.getElem?_enumFrom, hk, Nat.add_comm]

/-! ## generate_pattern -/

theorem foldl_count (P : Nat → Prop) [DecidablePred P] (l : List Nat) :
    ∀ a : Nat, l.foldl (fun n j => if P j then n + 1 else n) a
      = a + (l.filter (fun j => decide (P j))).length := by
  induction l with
  | nil => intro a; simp
  | cons j l ih =>
    intro a
    by_cases hj : P j
    · simp [List.foldl_cons, hj, ih, List.filter_cons]; omega
    · simp [List.foldl_cons, hj, ih, List.filter_cons]

theorem count_nonzero_eq (x : Int → ℚ) (ccnt : Nat) :
    count_nonzero x ccnt
      = ((List.range' 1 ccnt).filter (fun (j : Nat) => decide (x (j : Int) ≠ 0))).length := by
  unfold count_nonzero
  rw [foldl_count (fun j => x (j : Int) ≠ 0)]
  simp

theorem count_nonzero_eq_zero (x : Int → ℚ) (ccnt : Nat) :
    count_nonzero x ccnt = 0 ↔ ∀ j : Nat, 1 ≤ j → j ≤ ccnt → x (j : Int) = 0 := by
  rw [count_nonzero_eq, List.length_eq_zero, List.filter_eq_nil_iff]
  constructor
  · intro h j h1 h2
    have := h j (by rw [List.mem_range'_1]; omega)
    simpa using this
  · intro h j hj
    rw [List.mem_range'_1] at hj
    have := h j hj.1 (by omega)
    simp [this]

theorem fill_loop_spec (x : Int → ℚ) (ows : List OrderWidth) :
    ∀ (i : Nat) (ind : Nat → Int) (val : Nat → ℚ),
      (fill_loop x ows i ind val).1
          = i + (ows.filter (fun o => decide (x o.subprob_col_num ≠ 0))).length ∧
      (∀ j, j < i → (fill_loop x ows i ind val).2.1 j = ind j ∧
        (fill_loop x ows i ind val).2.2 j = val j) ∧
      ∀ (k : Nat) (o : OrderWidth),
        (ows.filter (fun o => decide (x o.subprob_col_num ≠ 0)))[k]? = some o →
        (fill_loop x ows i ind val).2.1 (i + k) = o.master_row_num ∧
        (fill_loop x ows i ind val).2.2 (i + k) = x o.subprob_col_num := by
  induction ows with
  | nil => intro i ind val; simp [fill_loop]
  | cons ow rest ih =>
    intro i ind val
    by_cases hv : x ow.subprob_col_num = 0
    · have hf : (ow :: rest).filter (fun o => decide (x o.subprob_col_num ≠ 0))
          = rest.filter (fun o => decide (x o.subprob_col_num ≠ 0)) :=
        List.filter_cons_of_neg (by simp [hv])
      have hl : fill_loop x (ow :: rest) i ind val = fill_loop x rest i ind val := by
        simp [fill_loop, hv]
      rw [hf, hl]
      exact ih i ind val
    · have hf : (ow :: rest).filter (fun o => decide (x o.subprob_col_num ≠ 0))
          = ow :: rest.filter (fun o => decide (x o.subprob_col_num ≠ 0)) :=
        List.filter_cons_of_pos (by simp [hv])
      have hl : fill_loop x (ow :: rest) i ind val
          = fill_loop x rest (i + 1) (Function.update ind i ow.master_row_num)
              (Function.update val i (x ow.subprob_col_num)) := by
        simp [fill_loop, hv]
      obtain ⟨h1, h2, h3⟩ := ih (i + 1) (Function.update ind i ow.master_row_num)
        (Function.update val i (x ow.subprob_col_num))
      rw [hf, hl]
      refine ⟨by rw [h1, List.length_cons]; omega, ?_, ?_⟩
      · intro j hj
        have := h2 j (by omega)
        rw [this.1, this.2]
        have hne : j ≠ i := by omega
        simp [Function.update, hne]
      · intro k o hk
        cases k with
        | zero =>
          simp only [List.getElem?_cons_zero, Option.some.injEq] at hk
          subst hk
          have := h2 i (by omega)
          simpa using this
        | succ k =>
          simp only [List.getElem?_cons_succ] at hk
          have := h3 k o hk
          have e : i + (k + 1) = i + 1 + k := by omega
          rw [e]; exact this

theorem renumber_filter (x : Int → ℚ) (ows : List OrderWidth) (c : Nat) :
    (renumber ows c).filter (fun o => decide (x o.subprob_col_num ≠ 0))
      = ((ows.enumFrom c).filter (fun ko => decide (x (ko.1 : Int) ≠ 0))).map
          (fun ko => { ko.2 with subprob_col_num := (ko.1 : Int) }) := by
  unfold renumber
  rw [List.filter_map]
  rfl

theorem selected_entries_eq (x : Int → ℚ) (ows : List OrderWidth) :
    selected_entries x ows
      = ((renumber ows 1).filter (fun o => decide (x o.subprob_col_num ≠ 0))).map
          (fun o => (o.master_row_num, x o.subprob_col_num)) := by
  rw [renumber_filter, List.map_map]
  rfl

theorem count_nonzero_renumber (x : Int → ℚ) (ows : List OrderWidth) :
    count_nonzero x ows.length
      = ((renumber ows 1).filter (fun o => decide (x o.subprob_col_num ≠ 0))).length := by
  rw [count_nonzero_eq, renumber_filter, List.length_map, ← List.enumFrom_map_fst 1 ows,
    List.filter_map, List.length_map]
  rfl

theorem entries_filled (x : Int → ℚ) (ows : List OrderWidth) (vs : VarStatus) (fs : Bool)
    (sol : ℚ) :
    entries { ind := (fill_loop x (renumber ows 1) 1 (fun _ => 0) (fun _ => 0)).2.1,
              val := (fill_loop x (renumber ows 1) 1 (fun _ => 0) (fun _ => 0)).2.2,
              nzcnt := count_nonzero x ows.length, var_status := vs, fixed_status := fs,
              int_sol := sol }
      = selected_entries x ows := by
  obtain ⟨_, _, h3⟩ := fill_loop_spec x (renumber ows 1) 1 (fun _ => 0) (fun _ => 0)
  have hlen := count_nonzero_renumber x ows
  rw [selected_entries_eq]
  apply List.ext_getElem?
  intro k
  by_cases hk : k < count_nonzero x ows.length
  · have hk2 : k < ((renumber ows 1).filter
        (fun o => decide (x o.subprob_col_num ≠ 0))).length := hlen ▸ hk
    have hget := List.getElem?_eq_getElem hk2
    obtain ⟨e1, e2⟩ := h3 k _ hget
    rw [List.getElem?_map, hget]
    simp only [entries, List.getElem?_map, List.getElem?_range hk, Option.map_some']
    rw [Nat.add_comm k 1, e1, e2]
  · have hk2 : ((renumber ows 1).filter
        (fun o => decide (x o.subprob_col_num ≠ 0))).length ≤ k := by
      rw [← hlen]; omega
    rw [List.getElem?_eq_none (by simpa [entries] using hk),
      List.getElem?_eq_none (by simpa using hk2)]

theorem generate_pattern_fail (max_pattern_width : ℚ) (solve : Solver)
    (ow_set : List OrderWidth) (iter_count : Int) (tol_flag : Bool)
    (hx : solve (subprob_call max_pattern_width ow_set tol_flag).lp
      (subprob_call max_pattern_width ow_set tol_flag).parm = none) :
    generate_pattern max_pattern_width solve ow_set iter_count tol_flag
      = .error Fault.assertion_failure := by
  cases tol_flag <;> simp_all [generate_pattern, subprob_call]

theorem generate_pattern_ok (max_pattern_width : ℚ) (solve : Solver)
    (ow_set : List OrderWidth) (iter_count : Int) (tol_flag : Bool) (x : Int → ℚ)
    (hx : solve (subprob_call max_pattern_width ow_set tol_flag).lp
      (subprob_call max_pattern_width ow_set tol_flag).parm = some x) :
    generate_pattern max_pattern_width solve ow_set iter_count tol_flag
      = .ok { pattern :=
                if count_nonzero x ow_set.length = 0 then none
                else some
                  { ind := (fill_loop x (renumber ow_set 1) 1 (fun _ => 0) (fun _ => 0)).2.1,
                    val := (fill_loop x (renumber ow_set 1) 1 (fun _ => 0) (fun _ => 0)).2.2,
                    nzcnt := count_nonzero x ow_set.length,
                    var_status := VarStatus.FRACTIONAL, fixed_status := false,
                    int_sol := 0 },
              ow_set := renumber ow_set 1,
              call := subprob_call max_pattern_width ow_set tol_flag } := by
  have hb : ∀ b, (create_subprob max_pattern_width glp_create_prob ow_set b).2
      = renumber ow_set 1 := fun b => by rw [create_subprob_fresh_eq]
  have hc : ∀ b, glp_get_num_cols (create_subprob max_pattern_width glp_create_prob ow_set b).1
      = ow_set.length := fun b => by rw [create_subprob_fresh_eq]; simp [glp_get_num_cols]
  cases tol_flag
  · simp only [subprob_call, Bool.false_eq_true, if_false] at hx
    simp only [generate_pattern, subprob_call, Bool.false_eq_true, if_false, hx, hb, hc]
    split <;> rfl
  · simp only [subprob_call, if_true] at hx
    simp only [generate_pattern, subprob_call, if_true, hx, hb, hc]
    split <;> rfl

/-- C6: for every order-width set and every column-value assignment `x` that the
solve gives for the subproblem built on a fresh problem, `generate_pattern`
returns; it returns null exactly when no column `1..n` has a non-zero value;
otherwise the entries of the returned pattern, positions `1..nzcnt`, are in
iteration order the pairs (master row index, column value) of the order
widths whose column value is non-zero, `nzcnt` is their number, and the
writing loop stops at position `nzcnt + 1`. -/
theorem generate_pattern_entries (max_pattern_width : ℚ) (solve : Solver)
    (ow_set : List OrderWidth) (iter_count : Int) (tol_flag : Bool) (x : Int → ℚ)
    (hx : solve (subprob_call max_pattern_width ow_set tol_flag).lp
      (subprob_call max_pattern_width ow_set tol_flag).parm = some x) :
    ∃ g, generate_pattern max_pattern_width solve ow_set iter_count tol_flag = .ok g ∧
      (g.pattern = none ↔ ∀ j : Nat, 1 ≤ j → j ≤ ow_set.length → x (j : Int) = 0) ∧
      ∀ p, g.pattern = some p →
        entries p = selected_entries x ow_set ∧
        p.nzcnt = (selected_entries x ow_set).length ∧
        (fill_loop x g.ow_set 1 (fun _ => 0) (fun _ => 0)).1 = p.nzcnt + 1 := by
  refine ⟨_, generate_pattern_ok max_pattern_width solve ow_set iter_count tol_flag x hx,
    ?_, ?_⟩
  · rw [← count_nonzero_eq_zero]
    by_cases h0 : count_nonzero x ow_set.length = 0 <;> simp [h0]
  · intro p hp
    by_cases h0 : count_nonzero x ow_set.length = 0
    · simp [h0] at hp
    · simp only [h0, if_false, Option.some.injEq] at hp
      subst hp
      have he := entries_filled x ow_set VarStatus.FRACTIONAL false 0
      refine ⟨he, ?_, ?_⟩
      · rw [← he]; simp [entries]
      · rw [(fill_loop_spec x (renumber ow_set 1) 1 (fun _ => 0) (fun _ => 0)).1,
          ← count_nonzero_renumber, Nat.add_comm]

/-! ## The capacity bound -/

theorem width_of_row_mem (ows : List OrderWidth)
    (hnd : (ows.map (fun o => o.master_row_num)).Nodup) (o : OrderWidth) (ho : o ∈ ows) :
    width_of_row ows o.master_row_num = o.width := by
  induction ows with
  | nil => cases ho
  | cons a rest ih =>
    rw [List.map_cons, List.nodup_cons] at hnd
    by_cases ha : a.master_row_num = o.master_row_num
    · have hao : o = a := by
        rcases List.mem_cons.1 ho with h | h
        · exact h
        · exact absurd (ha ▸ List.mem_map_of_mem (fun o => o.master_row_num) h) hnd.1
      subst hao
      simp [width_of_row]
    · have ho2 : o ∈ rest := by
        rcases List.mem_cons.1 ho with h | h
        · exact absurd (h ▸ rfl) ha
        · exact h
      have := ih hnd.2 ho2
      unfold width_of_row at this ⊢
      rw [List.find?_cons_of_neg _ (by simpa using ha)]
      exact this

theorem sum_filter_of_zero {α : Type} (p : α → Bool) (f : α → ℚ) (l : List α)
    (hz : ∀ a ∈ l, p a = false → f a = 0) :
    ((l.filter p).map f).sum = (l.map f).sum := by
  induction l with
  | nil => rfl
  | cons a l ih =>
    have ih2 := ih (fun b hb => hz b (List.mem_cons_of_mem _ hb))
    cases hpa : p a with
    | true => rw [List.filter_cons_of_pos hpa]; simp [ih2]
    | false =>
      rw [List.filter_cons_of_neg (by simp [hpa])]
      simp [ih2, hz a (List.mem_cons_self _ _) hpa]

theorem pattern_width_selected (ows : List OrderWidth)
    (hnd : (ows.map (fun o => o.master_row_num)).Nodup) (x : Int → ℚ) :
    ((selected_entries x ows).map (fun e => e.2 * width_of_row ows e.1)).sum
      = ((ows.enumFrom 1).map (fun ko => ko.2.width * x (ko.1 : Int))).sum := by
  unfold selected_entries
  rw [List.map_map,
    sum_filter_of_zero (fun ko => decide (x (ko.1 : Int) ≠ 0)) _ (ows.enumFrom 1)
      (by intro ko _ hk; simp at hk; simp [hk])]
  congr 1
  apply List.map_congr_left
  intro ko hko
  simp only [Function.comp]
  rw [width_of_row_mem ows hnd ko.2 (List.snd_mem_of_mem_enumFrom hko), mul_comm]

theorem col_coef_subprob_col (o : OrderWidth) : col_coef (subprob_col o) 1 = o.width := by
  by_cases hw : o.width = 0
  · simp [col_coef, subprob_col, hw]
  · simp [col_coef, subprob_col, hw, List.filter]

theorem row_activity_subprob (max_pattern_width : ℚ) (ows : List OrderWidth) (b : Bool)
    (x : Int → ℚ) :
    row_activity (create_subprob max_pattern_width glp_create_prob ows b).1 x 1
      = ((ows.enumFrom 1).map (fun ko => ko.2.width * x (ko.1 : Int))).sum := by
  rw [create_subprob_fresh_eq]
  simp only [row_activity, List.enumFrom_map, List.map_map]
  congr 1
  apply List.map_congr_left
  intro ko _
  simp [Function.comp, col_coef_subprob_col]

/-- C7: when the master row indices of the order widths are distinct and the
column values given by the solve satisfy the capacity row of the subproblem,
the pattern returned by `generate_pattern` has total width (sum over its
entries of count × width of the order width with that master row index) at
most `max_pattern_width` when `tol_flag` is false and at most
`max_pattern_width + 0.5` when it is true. -/
theorem generate_pattern_capacity (max_pattern_width : ℚ) (solve : Solver)
    (ow_set : List OrderWidth) (iter_count : Int) (tol_flag : Bool) (x : Int → ℚ)
    (hnd : (ow_set.map (fun o => o.master_row_num)).Nodup)
    (hx : solve (subprob_call max_pattern_width ow_set tol_flag).lp
      (subprob_call max_pattern_width ow_set tol_flag).parm = some x)
    (hcap : capacity_ok (subprob_call max_pattern_width ow_set tol_flag).lp x) :
    ∃ g, generate_pattern max_pattern_width solve ow_set iter_count tol_flag = .ok g ∧
      ∀ p, g.pattern = some p →
        pattern_width ow_set p ≤
          if tol_flag = true then max_pattern_width + 1 / 2 else max_pattern_width := by
  refine ⟨_, generate_pattern_ok max_pattern_width solve ow_set iter_count tol_flag x hx, ?_⟩
  intro p hp
  by_cases h0 : count_nonzero x ow_set.length = 0
  · simp [h0] at hp
  · simp only [h0, if_false, Option.some.injEq] at hp
    subst hp
    unfold pattern_width
    rw [entries_filled, pattern_width_selected ow_set hnd,
      ← row_activity_subprob max_pattern_width ow_set tol_flag x]
    unfold capacity_ok subprob_call at hcap
    simp only at hcap
    have hrows : (create_subprob max_pattern_width glp_create_prob ow_set tol_flag).1.rows[0]?
        = some (capacity_row max_pattern_width tol_flag) := by
      rw [create_subprob_fresh_eq]; rfl
    rw [hrows] at hcap
    exact hcap

/-! ## The generic-IP branch of get_new_pattern -/

theorem generate_pattern_shape (max_pattern_width : ℚ) (solve : Solver)
    (ow_set : List OrderWidth) (iter_count : Int) (tol_flag : Bool) (g : Generated)
    (hg : generate_pattern max_pattern_width solve ow_set iter_count tol_flag = .ok g) :
    g.ow_set = renumber ow_set 1 ∧
    g.call = subprob_call max_pattern_width ow_set tol_flag := by
  cases hs : solve (subprob_call max_pattern_width ow_set tol_flag).lp
      (subprob_call max_pattern_width ow_set tol_flag).parm with
  | none =>
    rw [generate_pattern_fail max_pattern_width solve ow_set iter_count tol_flag hs] at hg
    cases hg
  | some x =>
    rw [generate_pattern_ok max_pattern_width solve ow_set iter_count tol_flag x hs] at hg
    cases hg
    exact ⟨rfl, rfl⟩

theorem get_new_pattern_ip_eq (g : Globals) (solve : Solver)
    (get_dp_solution : List OrderWidth → ℚ → List Pattern)
    (ow_set : List OrderWidth) (iter_count : Int) (hflag : g.subintopt_flag = true)
    (g1 : Generated)
    (h1 : generate_pattern g.max_pattern_width solve ow_set iter_count false = .ok g1)
    (d1 : Bool) (hd1 : check_duplicate g.PatternList g1.pattern = .ok d1) :
    get_new_pattern g solve get_dp_solution ow_set iter_count =
      if d1 = true ∧ g.workaround_flag = true then
        match generate_pattern g.max_pattern_width solve g1.ow_set iter_count true with
        | .error e => .error e
        | .ok g2 =>
          match check_duplicate g.PatternList g2.pattern with
          | .error e => .error e
          | .ok d2 =>
            .ok { new_pat := if d2 = true then none else g2.pattern, ow_set := g2.ow_set,
                  PatternList := g.PatternList, solves := [g1.call, g2.call] }
      else
        .ok { new_pat := if d1 = true then none else g1.pattern, ow_set := g1.ow_set,
              PatternList := g.PatternList, solves := [g1.call] } := by
  simp only [get_new_pattern, hflag, Bool.true_eq_false, if_false, h1, hd1]
  by_cases hc : d1 = true ∧ g.workaround_flag = true
  · simp only [hc, and_self, if_true]
    cases generate_pattern g.max_pattern_width solve g1.ow_set iter_count true with
    | error e => rfl
    | ok g2 => rfl
  · simp only [hc, if_false, hd1]

theorem get_new_pattern_ip_null (g : Globals) (solve : Solver)
    (get_dp_solution : List OrderWidth → ℚ → List Pattern)
    (ow_set : List OrderWidth) (iter_count : Int) (hflag : g.subintopt_flag = true)
    (g1 : Generated)
    (h1 : generate_pattern g.max_pattern_width solve ow_set iter_count false = .ok g1)
    (hnull : g1.pattern = none) (q : Pattern) (rest : List Pattern)
    (hreg : g.PatternList = q :: rest) :
    get_new_pattern g solve get_dp_solution ow_set iter_count
      = .error Fault.null_dereference := by
  simp only [get_new_pattern, hflag, Bool.true_eq_false, if_false, h1, hnull, hreg,
    check_duplicate_null]

theorem subprob_call_facts (max_pattern_width : ℚ) (ow_set : List OrderWidth) :
    (subprob_call max_pattern_width ow_set false).lp.rows.map (fun r => r.ub)
      = [max_pattern_width] ∧
    (subprob_call max_pattern_width ow_set false).parm = glp_init_iocp ∧
    (subprob_call max_pattern_width ow_set true).lp.rows.map (fun r => r.ub)
      = [max_pattern_width + 1 / 2] ∧
    (subprob_call max_pattern_width ow_set true).parm.tol_obj = -glp_init_iocp.tol_obj := by
  simp [subprob_call, create_subprob_fresh_eq, capacity_row]

/-- The generic-IP branch on the runs in which `check_duplicate` returns: with
`subintopt_flag` true and a first solve (relaxed capacity, default
parameters) that returns `g1`: when `check_duplicate` is false on its result,
that result is returned after this one solve; when it is true and
`workaround_flag` is false, null is returned after this one solve; when it is
true and `workaround_flag` is true, exactly one further solve is made, with
row bound `max_pattern_width + 0.5` and `tol_obj` negated, and its result is
returned when `check_duplicate` is false on it and null is returned when
`check_duplicate` is true on it. -/
theorem get_new_pattern_ip (g : Globals) (solve : Solver)
    (get_dp_solution : List OrderWidth → ℚ → List Pattern)
    (ow_set : List OrderWidth) (iter_count : Int) (hflag : g.subintopt_flag = true)
    (g1 : Generated)
    (h1 : generate_pattern g.max_pattern_width solve ow_set iter_count false = .ok g1) :
    (g1.call.lp.rows.map (fun r => r.ub) = [g.max_pattern_width] ∧
      g1.call.parm = glp_init_iocp) ∧
    (check_duplicate g.PatternList g1.pattern = .ok false →
      ∃ o, get_new_pattern g solve get_dp_solution ow_set iter_count = .ok o ∧
        o.new_pat = g1.pattern ∧ o.solves = [g1.call]) ∧
    (check_duplicate g.PatternList g1.pattern = .ok true → g.workaround_flag = false →
      ∃ o, get_new_pattern g solve get_dp_solution ow_set iter_count = .ok o ∧
        o.new_pat = none ∧ o.solves = [g1.call]) ∧
    (check_duplicate g.PatternList g1.pattern = .ok true → g.workaround_flag = true →
      ∀ g2, generate_pattern g.max_pattern_width solve g1.ow_set iter_count true = .ok g2 →
        (g2.call.lp.rows.map (fun r => r.ub) = [g.max_pattern_width + 1 / 2] ∧
          g2.call.parm.tol_obj = -glp_init_iocp.tol_obj) ∧
        (check_duplicate g.PatternList g2.pattern = .ok false →
          ∃ o, get_new_pattern g solve get_dp_solution ow_set iter_count = .ok o ∧
            o.new_pat = g2.pattern ∧ o.solves = [g1.call, g2.call]) ∧
        (check_duplicate g.PatternList g2.pattern = .ok true →
          ∃ o, get_new_pattern g solve get_dp_solution ow_set iter_count = .ok o ∧
            o.new_pat = none ∧ o.solves = [g1.call, g2.call])) := by
  have hs1 := generate_pattern_shape _ _ _ _ _ _ h1
  refine ⟨?_, ?_, ?_, ?_⟩
  · rw [hs1.2]
    exact ⟨(subprob_call_facts _ _).1, (subprob_call_facts _ _).2.1⟩
  · intro hd
    rw [get_new_pattern_ip_eq g solve get_dp_solution ow_set iter_count hflag g1 h1 false hd]
    simp only [Bool.false_eq_true, false_and, if_false]
    exact ⟨_, rfl, rfl, rfl⟩
  · intro hd hw
    rw [get_new_pattern_ip_eq g solve get_dp_solution ow_set iter_count hflag g1 h1 true hd]
    simp only [hw, Bool.false_eq_true, and_false, if_false, if_true]
    exact ⟨_, rfl, rfl, rfl⟩
  · intro hd hw g2 h2
    have hs2 := generate_pattern_shape _ _ _ _ _ _ h2
    refine ⟨?_, ?_, ?_⟩
    · rw [hs2.2]
      exact ⟨(subprob_call_facts _ _).2.2.1, (subprob_call_facts _ _).2.2.2⟩
    · intro hd2
      rw [get_new_pattern_ip_eq g solve get_dp_solution ow_set iter_count hflag g1 h1 true hd]
      simp only [hw, and_self, if_true, h2, hd2, Bool.false_eq_true, if_false]
      exact ⟨_, rfl, rfl, rfl⟩
    · intro hd2
      rw [get_new_pattern_ip_eq g solve get_dp_solution ow_set iter_count hflag g1 h1 true hd]
      simp only [hw, and_self, if_true, h2, hd2]
      exact ⟨_, rfl, rfl, rfl⟩

/-! ## What a call leaves behind, and calling again -/

theorem renumber_cons (o : OrderWidth) (rest : List OrderWidth) (c : Nat) :
    renumber (o :: rest) c
      = { o with subprob_col_num := (c : Int) } :: renumber rest (c + 1) := rfl

theorem renumber_renumber (ows : List OrderWidth) :
    ∀ c d : Nat, renumber (renumber ows c) d = renumber ows d := by
  induction ows with
  | nil => intro c d; rfl
  | cons o rest ih => intro c d; simp [renumber_cons, ih]

theorem map_subprob_col_renumber (ows : List OrderWidth) :
    ∀ c : Nat, (renumber ows c).map subprob_col = ows.map subprob_col := by
  induction ows with
  | nil => intro c; rfl
  | cons o rest ih => intro c; simp [renumber_cons, ih, subprob_col]

theorem length_renumber (ows : List OrderWidth) (c : Nat) :
    (renumber ows c).length = ows.length := by
  simp [renumber]

theorem generate_pattern_renumber (max_pattern_width : ℚ) (solve : Solver)
    (ow_set : List OrderWidth) (c : Nat) (it it2 : Int) (tol_flag : Bool) :
    generate_pattern max_pattern_width solve (renumber ow_set c) it2 tol_flag
      = generate_pattern max_pattern_width solve ow_set it tol_flag := by
  have hcall : subprob_call max_pattern_width (renumber ow_set c) tol_flag
      = subprob_call max_pattern_width ow_set tol_flag := by
    simp [subprob_call, create_subprob_fresh_eq, map_subprob_col_renumber]
  cases hs : solve (subprob_call max_pattern_width ow_set tol_flag).lp
      (subprob_call max_pattern_width ow_set tol_flag).parm with
  | none =>
    rw [generate_pattern_fail max_pattern_width solve ow_set it tol_flag hs,
      generate_pattern_fail max_pattern_width solve (renumber ow_set c) it2 tol_flag
        (by rw [hcall]; exact hs)]
  | some x =>
    rw [generate_pattern_ok max_pattern_width solve ow_set it tol_flag x hs,
      generate_pattern_ok max_pattern_width solve (renumber ow_set c) it2 tol_flag x
        (by rw [hcall]; exact hs), hcall, renumber_renumber, length_renumber]

theorem get_new_pattern_frame (g : Globals) (solve : Solver)
    (get_dp_solution : List OrderWidth → ℚ → List Pattern)
    (ow_set : List OrderWidth) (iter_count : Int) (o : Outcome)
    (h : get_new_pattern g solve get_dp_solution ow_set iter_count = .ok o) :
    o.PatternList = g.PatternList ∧
    o.ow_set = (if g.subintopt_flag = true then renumber ow_set 1 else ow_set) ∧
    ∀ p, o.new_pat = some p → check_duplicate g.PatternList (some p) = .ok false := by
  by_cases hflag : g.subintopt_flag = true
  · cases h1 : generate_pattern g.max_pattern_width solve ow_set iter_count false with
    | error e => simp [get_new_pattern, hflag, h1] at h
    | ok g1 =>
      have hs1 := generate_pattern_shape _ _ _ _ _ _ h1
      cases hd1 : check_duplicate g.PatternList g1.pattern with
      | error e => simp [get_new_pattern, hflag, h1, hd1] at h
      | ok d1 =>
        rw [get_new_pattern_ip_eq g solve get_dp_solution ow_set iter_count hflag g1 h1 d1
          hd1] at h
        by_cases hc : d1 = true ∧ g.workaround_flag = true
        · simp only [hc, and_self, if_true] at h
          cases h2 : generate_pattern g.max_pattern_width solve g1.ow_set iter_count true with
          | error e => rw [h2] at h; cases h
          | ok g2 =>
            have hs2 := generate_pattern_shape _ _ _ _ _ _ h2
            rw [h2] at h
            dsimp only at h
            cases hd2 : check_duplicate g.PatternList g2.pattern with
            | error e => rw [hd2] at h; cases h
            | ok d2 =>
              rw [hd2] at h
              simp only [Except.ok.injEq] at h
              subst h
              refine ⟨rfl, ?_, ?_⟩
              · simp only [hflag, if_true, hs2.1, hs1.1, renumber_renumber]
              · intro p hp
                cases d2 with
                | true => simp at hp
                | false =>
                  simp only [Bool.false_eq_true, if_false] at hp
                  rw [← hp]; exact hd2
        · simp only [hc, if_false, Except.ok.injEq] at h
          subst h
          refine ⟨rfl, ?_, ?_⟩
          · simp only [hflag, if_true, hs1.1]
          · intro p hp
            cases d1 with
            | true => simp at hp
            | false =>
              simp only [Bool.false_eq_true, if_false] at hp
              rw [← hp]; exact hd1
  · have hf : g.subintopt_flag = false := by simpa using hflag
    rcases dp_scan_cases g.PatternList (get_dp_solution ow_set g.max_pattern_width) with
      ⟨h1, _⟩ | ⟨pre, c, post, _, _, h3, h4⟩
    · rw [get_new_pattern_dp_eq g solve get_dp_solution ow_set iter_count hf _ h1] at h
      simp only [Except.ok.injEq] at h
      subst h
      exact ⟨rfl, by simp [hf], by intro p hp; cases hp⟩
    · rw [get_new_pattern_dp_eq g solve get_dp_solution ow_set iter_count hf _ h4] at h
      simp only [Except.ok.injEq] at h
      subst h
      refine ⟨rfl, by simp [hf], ?_⟩
      intro p hp
      simp only [Option.some.injEq] at hp
      rw [← hp]; exact h3

theorem get_new_pattern_again (g : Globals) (solve : Solver)
    (get_dp_solution : List OrderWidth → ℚ → List Pattern)
    (ow_set : List OrderWidth) (it it2 : Int) :
    get_new_pattern g solve get_dp_solution
        (if g.subintopt_flag = true then renumber ow_set 1 else ow_set) it2
      = get_new_pattern g solve get_dp_solution ow_set it := by
  by_cases hflag : g.subintopt_flag = true
  · simp only [hflag, if_true, get_new_pattern, Bool.true_eq_false, if_false]
    rw [generate_pattern_renumber g.max_pattern_width solve ow_set 1 it it2 false]
    rfl
  · simp only [hflag, if_false]
    rfl

/-- C10: when `get_new_pattern` returns null, the registry is as it was before
the call, and a second call from the state that the first call left (same
flags, duals and solver, the registry and the order widths as the first call
left them, any iteration count) returns null again. -/
theorem get_new_pattern_exhausted_again (g : Globals) (solve : Solver)
    (get_dp_solution : List OrderWidth → ℚ → List Pattern)
    (ow_set : List OrderWidth) (it it2 : Int) (o : Outcome)
    (h : get_new_pattern g solve get_dp_solution ow_set it = .ok o)
    (hnone : o.new_pat = none) :
    o.PatternList = g.PatternList ∧
    ∃ o2, get_new_pattern { g with PatternList := o.PatternList } solve get_dp_solution
        o.ow_set it2 = .ok o2 ∧ o2.new_pat = none := by
  obtain ⟨hreg, how, _⟩ := get_new_pattern_frame g solve get_dp_solution ow_set it o h
  refine ⟨hreg, o, ?_, hnone⟩
  have hg : ({ g with PatternList := o.PatternList } : Globals) = g := by
    rw [hreg]
  rw [hg, how, get_new_pattern_again g solve get_dp_solution ow_set it it2]
  exact h

/-! ## Registry uniqueness -/

theorem sameEntries_iff_entries (q p : Pattern) :
    SameEntries q p ↔ entries q = entries p := by
  constructor
  · rintro ⟨hn, hall⟩
    unfold entries
    rw [hn]
    apply List.map_congr_left
    intro k hk
    rw [List.mem_range] at hk
    obtain ⟨e1, e2⟩ := hall (k + 1) (by omega) (by omega)
    rw [e1, e2]
  · intro h
    have hn : q.nzcnt = p.nzcnt := by
      have := congrArg List.length h
      simpa [entries] using this
    refine ⟨hn, ?_⟩
    intro i h1 h2
    have hk : i - 1 < p.nzcnt := by omega
    have hq := congrArg (fun l => l[i - 1]?) h
    simp only [entries, List.getElem?_map, List.getElem?_range hk,
      List.getElem?_range (hn ▸ hk), Option.map_some', Option.some.injEq, Prod.mk.injEq]
      at hq
    have e : i - 1 + 1 = i := by omega
    rw [e] at hq
    exact hq

theorem registryDistinct_append (reg : List Pattern) (p : Pattern)
    (hreg : RegistryDistinct reg)
    (hp : check_duplicate reg (some p) = .ok false) :
    RegistryDistinct (reg ++ [p]) := by
  unfold RegistryDistinct at hreg ⊢
  rw [List.pairwise_append]
  refine ⟨hreg, List.pairwise_singleton _ _, ?_⟩
  intro a ha b hb
  rw [List.mem_singleton] at hb
  subst hb
  intro hs
  exact (check_duplicate_false_iff reg b).1 hp ⟨a, ha, hs⟩

/-- Positional form of registry uniqueness: when no two patterns of the registry
have the same entries at the same positions `1..nzcnt`, and `get_new_pattern`
(either strategy)
returns a pattern, the registry with that pattern appended still has no two
patterns with the same entries at the same positions. -/
theorem get_new_pattern_keeps_distinct (g : Globals) (solve : Solver)
    (get_dp_solution : List OrderWidth → ℚ → List Pattern)
    (ow_set : List OrderWidth) (iter_count : Int) (o : Outcome) (p : Pattern)
    (hreg : RegistryDistinct g.PatternList)
    (h : get_new_pattern g solve get_dp_solution ow_set iter_count = .ok o)
    (hp : o.new_pat = some p) :
    RegistryDistinct (g.PatternList ++ [p]) :=
  registryDistinct_append g.PatternList p hreg
    ((get_new_pattern_frame g solve get_dp_solution ow_set iter_count o h).2.2 p hp)

/-! ## The sample inputs evaluated -/

theorem entries_sample_pat_12 : entries sample_pat_12 = [(1, 1), (2, 1)] := by
  simp [entries, sample_pat_12, List.range_succ]

theorem entries_sample_pat_21 : entries sample_pat_21 = [(2, 1), (1, 1)] := by
  simp [entries, sample_pat_21, List.range_succ]

theorem selected_sample : selected_entries sample_values_11 sample_ows = [(1, 1), (2, 1)] := by
  simp [selected_entries, sample_values_11, sample_ows, List.enumFrom, List.filter]

theorem count_sample : count_nonzero sample_values_11 sample_ows.length ≠ 0 := by
  intro h
  have := (count_nonzero_eq_zero _ _).1 h 1 (by omega) (by simp [sample_ows])
  simp [sample_values_11] at this

theorem check_duplicate_entries_true (reg : List Pattern) (p q : Pattern) (hq : q ∈ reg)
    (he : entries q = entries p) : check_duplicate reg (some p) = .ok true :=
  (check_duplicate_true_iff reg p).2 ⟨q, hq, (sameEntries_iff_entries q p).2 he⟩

theorem check_duplicate_entries_false (reg : List Pattern) (p : Pattern)
    (he : ∀ q ∈ reg, entries q ≠ entries p) : check_duplicate reg (some p) = .ok false :=
  (check_duplicate_false_iff reg p).2
    (fun ⟨q, hq, hs⟩ => he q hq ((sameEntries_iff_entries q p).1 hs))

theorem generate_pattern_some (max_pattern_width : ℚ) (solve : Solver)
    (ow_set : List OrderWidth) (iter_count : Int) (tol_flag : Bool) (x : Int → ℚ)
    (hx : solve (subprob_call max_pattern_width ow_set tol_flag).lp
      (subprob_call max_pattern_width ow_set tol_flag).parm = some x)
    (hnz : count_nonzero x ow_set.length ≠ 0) :
    ∃ g p, generate_pattern max_pattern_width solve ow_set iter_count tol_flag = .ok g ∧
      g.pattern = some p ∧ entries p = selected_entries x ow_set := by
  have h := generate_pattern_ok max_pattern_width solve ow_set iter_count tol_flag x hx
  rw [if_neg hnz] at h
  exact ⟨_, _, h, rfl, entries_filled x ow_set _ _ _⟩

theorem sample_generate_first :
    ∃ g p, generate_pattern 10 sample_solve_11 sample_ows 0 false = .ok g ∧
      g.pattern = some p ∧ entries p = [(1, 1), (2, 1)] := by
  obtain ⟨g, p, h, hp, he⟩ := generate_pattern_some 10 sample_solve_11 sample_ows 0 false
    sample_values_11 rfl count_sample
  exact ⟨g, p, h, hp, he.trans selected_sample⟩

theorem sample_generate (tol_flag : Bool) (c : Nat) (it : Int) :
    ∃ g p, generate_pattern 10 sample_solve_11 (renumber sample_ows c) it tol_flag = .ok g ∧
      g.pattern = some p ∧ entries p = [(1, 1), (2, 1)] := by
  rw [generate_pattern_renumber 10 sample_solve_11 sample_ows c 0 it tol_flag]
  obtain ⟨g, p, h, hp, he⟩ := generate_pattern_some 10 sample_solve_11 sample_ows 0 tol_flag
    sample_values_11 rfl count_sample
  exact ⟨g, p, h, hp, he.trans selected_sample⟩

theorem sample_generate_zero (ows : List OrderWidth) (tol_flag : Bool) :
    ∃ g, generate_pattern 10 sample_solve_zero ows 0 tol_flag = .ok g ∧ g.pattern = none := by
  refine ⟨_, generate_pattern_ok 10 sample_solve_zero ows 0 tol_flag (fun _ => 0) rfl, ?_⟩
  exact if_pos ((count_nonzero_eq_zero _ _).2 (fun _ _ _ => rfl))

theorem sample_not_dup_21 (p : Pattern) (he : entries p = [(1, 1), (2, 1)]) :
    check_duplicate [sample_pat_21] (some p) = .ok false := by
  apply check_duplicate_entries_false
  intro q hq
  rw [List.mem_singleton] at hq
  subst hq
  rw [entries_sample_pat_21, he]
  simp

theorem sample_dup_12 (p : Pattern) (he : entries p = [(1, 1), (2, 1)]) :
    check_duplicate [sample_pat_12] (some p) = .ok true :=
  check_duplicate_entries_true [sample_pat_12] p sample_pat_12 (List.mem_singleton.2 rfl)
    (by rw [entries_sample_pat_12, he])

theorem sample_returns :
    ∃ o p, get_new_pattern (sample_globals [sample_pat_21] true true) sample_solve_11
        sample_dp sample_ows 0 = .ok o ∧
      o.new_pat = some p ∧ entries p = [(1, 1), (2, 1)] := by
  obtain ⟨g1, p, h1, hp, he⟩ := sample_generate_first
  have hd : check_duplicate [sample_pat_21] g1.pattern = .ok false := by
    rw [hp]; exact sample_not_dup_21 p he
  refine ⟨_, p, get_new_pattern_ip_eq (sample_globals [sample_pat_21] true true)
    sample_solve_11 sample_dp sample_ows 0 rfl g1 h1 false hd, ?_, he⟩
  simp [hp]

theorem sample_exhausted :
    ∃ o, get_new_pattern (sample_globals [] true true) sample_solve_zero sample_dp
        sample_ows_flat 0 = .ok o ∧ o.new_pat = none := by
  obtain ⟨g1, h1, hnull⟩ := sample_generate_zero sample_ows_flat false
  have hd : check_duplicate (sample_globals [] true true).PatternList g1.pattern
      = .ok false := check_duplicate_nil _
  refine ⟨_, get_new_pattern_ip_eq (sample_globals [] true true) sample_solve_zero
    sample_dp sample_ows_flat 0 rfl g1 h1 false hd, ?_⟩
  simp [hnull]

/-- C5, counterexample: the registry holds one pattern, with entries (row 2, 1),
(row 1, 1); under the generic-IP strategy the solve puts one unit on each of
the two order widths and `get_new_pattern` returns the pattern with entries
(row 1, 1), (row 2, 1); the registry with it appended holds two patterns
that are equal as multisets of (row index, count) pairs. -/
theorem registry_perm_distinct_broken :
    RegistryPermDistinct [sample_pat_21] ∧
    ∃ o p, get_new_pattern (sample_globals [sample_pat_21] true true) sample_solve_11
        sample_dp sample_ows 0 = .ok o ∧
      o.new_pat = some p ∧ entries p = [(1, 1), (2, 1)] ∧
      ¬ RegistryPermDistinct ([sample_pat_21] ++ [p]) := by
  refine ⟨List.pairwise_singleton _ _, ?_⟩
  obtain ⟨o, p, ho, hp, he⟩ := sample_returns
  refine ⟨o, p, ho, hp, he, ?_⟩
  intro hpair
  have hperm : PermEqual sample_pat_21 p := by
    unfold PermEqual
    rw [entries_sample_pat_21, he]
    exact List.Perm.swap _ _ _
  unfold RegistryPermDistinct at hpair
  simp only [List.singleton_append, List.pairwise_cons, List.mem_singleton,
    forall_eq] at hpair
  exact hpair.1 hperm

/-- C2, the failing run: with the generic-IP strategy, a registry that holds one
pattern and a solve that leaves every column at zero, `generate_pattern`
returns null and `get_new_pattern` ends in a null dereference inside
`check_duplicate`; with an empty registry the same call returns null. -/
theorem get_new_pattern_null_fault :
    get_new_pattern (sample_globals [sample_pat_12] true true) sample_solve_zero sample_dp
        sample_ows_flat 0 = .error Fault.null_dereference ∧
    ∃ o, get_new_pattern (sample_globals [] true true) sample_solve_zero sample_dp
        sample_ows_flat 0 = .ok o ∧ o.new_pat = none := by
  obtain ⟨g1, h1, hnull⟩ := sample_generate_zero sample_ows_flat false
  exact ⟨get_new_pattern_ip_null (sample_globals [sample_pat_12] true true)
      sample_solve_zero sample_dp sample_ows_flat 0 rfl g1 h1 hnull sample_pat_12 [] rfl,
    sample_exhausted⟩

/-! ## The theorems at the sample inputs -/

/-- C8 at a sample input: a registered pattern is reported as a duplicate. -/
theorem pattern_compare_symm_refl_witness :
    sample_pat_12 ∈ [sample_pat_21, sample_pat_12] ∧
    check_duplicate [sample_pat_21, sample_pat_12] (some sample_pat_12) = .ok true :=
  ⟨by simp, (pattern_compare_symm_refl sample_pat_12 sample_pat_21).2.2 _ (by simp)⟩

/-- C4 at a sample input: the first candidate is registered, the second is not and
is returned. -/
theorem get_new_pattern_dp_witness :
    (sample_globals [sample_pat_21] true false).subintopt_flag = false ∧
    ∃ o, get_new_pattern (sample_globals [sample_pat_21] true false) sample_solve_11
        sample_dp sample_ows 0 = .ok o ∧ o.new_pat = some sample_pat_12 := by
  refine ⟨rfl, ?_⟩
  obtain ⟨o, ho, hfirst, _⟩ := get_new_pattern_dp (sample_globals [sample_pat_21] true false)
    sample_solve_11 sample_dp sample_ows 0 rfl
  refine ⟨o, ho, hfirst [sample_pat_21] sample_pat_12 [] rfl ?_
    (sample_not_dup_21 _ entries_sample_pat_12)⟩
  intro d hd
  rw [List.mem_singleton] at hd
  subst hd
  exact check_duplicate_entries_true _ _ sample_pat_21 (List.mem_singleton.2 rfl) rfl

/-- C6 at a sample input: one unit on each of two columns gives the two entries
(row 1, 1), (row 2, 1). -/
theorem generate_pattern_entries_witness :
    sample_solve_11 (subprob_call 10 sample_ows false).lp
      (subprob_call 10 sample_ows false).parm = some sample_values_11 ∧
    ∃ g, generate_pattern 10 sample_solve_11 sample_ows 0 false = .ok g ∧
      ∀ p, g.pattern = some p → entries p = [(1, 1), (2, 1)] ∧ p.nzcnt = 2 := by
  refine ⟨rfl, ?_⟩
  obtain ⟨g, hg, _, hall⟩ := generate_pattern_entries 10 sample_solve_11 sample_ows 0 false
    sample_values_11 rfl
  refine ⟨g, hg, fun p hp => ?_⟩
  obtain ⟨e1, e2, _⟩ := hall p hp
  rw [selected_sample] at e1 e2
  exact ⟨e1, e2⟩

/-- C7 at a sample input: widths 3 and 7 with one unit each fill the roll of
width 10. -/
theorem generate_pattern_capacity_witness :
    (sample_ows.map (fun o => o.master_row_num)).Nodup ∧
    capacity_ok (subprob_call 10 sample_ows false).lp sample_values_11 ∧
    ∃ g, generate_pattern 10 sample_solve_11 sample_ows 0 false = .ok g ∧
      ∀ p, g.pattern = some p → pattern_width sample_ows p ≤ 10 := by
  have hnd : (sample_ows.map (fun o => o.master_row_num)).Nodup := by
    simp [sample_ows]
  have hcap : capacity_ok (subprob_call 10 sample_ows false).lp sample_values_11 := by
    unfold capacity_ok subprob_call
    simp only [row_activity_subprob]
    rw [create_subprob_fresh_eq]
    simp [capacity_row, sample_ows, sample_values_11, List.enumFrom]
    norm_num
  refine ⟨hnd, hcap, ?_⟩
  obtain ⟨g, hg, hall⟩ := generate_pattern_capacity 10 sample_solve_11 sample_ows 0 false
    sample_values_11 hnd rfl hcap
  exact ⟨g, hg, fun p hp => by simpa using hall p hp⟩

/-- C9 at a sample input: the second order width gets column 2. -/
theorem create_subprob_fresh_witness :
    sample_ows[1]? = some { width := 7, dual_value := 3, subprob_col_num := -1,
                            master_row_num := 2 } ∧
    ∃ c, (create_subprob 10 glp_create_prob sample_ows true).1.cols[1]? = some c ∧
      c.kind = ColKind.GLP_IV ∧ c.obj = 3 ∧ col_coef c 1 = 7 ∧
      (create_subprob 10 glp_create_prob sample_ows true).2[1]?
        = some { width := 7, dual_value := 3, subprob_col_num := 2, master_row_num := 2 } := by
  refine ⟨rfl, ?_⟩
  obtain ⟨c, hc, h1, _, _, h4, h5, h6⟩ := (create_subprob_fresh 10 sample_ows true).2.2.2.2 1
    { width := 7, dual_value := 3, subprob_col_num := -1, master_row_num := 2 } rfl
  exact ⟨c, hc, h1, h4, h5, by simpa using h6⟩

/-- The generic-IP branch at a sample input: the first result is registered, the
workaround is on, the second solve gives the same pattern, and null is
returned after two solves. -/
theorem get_new_pattern_ip_witness :
    (sample_globals [sample_pat_12] true true).subintopt_flag = true ∧
    ∃ o, get_new_pattern (sample_globals [sample_pat_12] true true) sample_solve_11
        sample_dp sample_ows 0 = .ok o ∧ o.new_pat = none ∧ o.solves.length = 2 := by
  refine ⟨rfl, ?_⟩
  obtain ⟨g1, p1, h1, hp1, he1⟩ := sample_generate_first
  have hs1 := generate_pattern_shape _ _ _ _ _ _ h1
  obtain ⟨g2, p2, h2, hp2, he2⟩ := sample_generate true 1 0
  rw [← hs1.1] at h2
  have hd1 : check_duplicate (sample_globals [sample_pat_12] true true).PatternList
      g1.pattern = .ok true := by rw [hp1]; exact sample_dup_12 p1 he1
  have hd2 : check_duplicate (sample_globals [sample_pat_12] true true).PatternList
      g2.pattern = .ok true := by rw [hp2]; exact sample_dup_12 p2 he2
  obtain ⟨_, _, hdup⟩ := (get_new_pattern_ip (sample_globals [sample_pat_12] true true)
    sample_solve_11 sample_dp sample_ows 0 rfl g1 h1).2.2.2 hd1 rfl g2 h2
  obtain ⟨o, ho, hn, hsol⟩ := hdup hd2
  exact ⟨o, ho, hn, by rw [hsol]; rfl⟩

/-- C10 at a sample input: an all-zero solve on an empty registry returns null,
and so does the call repeated on the state it leaves. -/
theorem get_new_pattern_exhausted_again_witness :
    ∃ o, get_new_pattern (sample_globals [] true true) sample_solve_zero sample_dp
        sample_ows_flat 0 = .ok o ∧ o.new_pat = none ∧
      o.PatternList = (sample_globals [] true true).PatternList ∧
      ∃ o2, get_new_pattern { sample_globals [] true true with PatternList := o.PatternList }
          sample_solve_zero sample_dp o.ow_set 1 = .ok o2 ∧ o2.new_pat = none := by
  obtain ⟨o, ho, hn⟩ := sample_exhausted
  obtain ⟨hreg, hagain⟩ := get_new_pattern_exhausted_again (sample_globals [] true true)
    sample_solve_zero sample_dp sample_ows_flat 0 1 o ho hn
  exact ⟨o, ho, hn, hreg, hagain⟩

/-- Positional uniqueness at a sample input: the returned pattern differs from
the registered one at position 1, and the extended registry stays distinct. -/
theorem get_new_pattern_keeps_distinct_witness :
    RegistryDistinct (sample_globals [sample_pat_21] true true).PatternList ∧
    ∃ o p, get_new_pattern (sample_globals [sample_pat_21] true true) sample_solve_11
        sample_dp sample_ows 0 = .ok o ∧ o.new_pat = some p ∧
      RegistryDistinct ((sample_globals [sample_pat_21] true true).PatternList ++ [p]) := by
  have hreg : RegistryDistinct (sample_globals [sample_pat_21] true true).PatternList :=
    List.pairwise_singleton _ _
  obtain ⟨o, p, ho, hp, _⟩ := sample_returns
  exact ⟨hreg, o, p, ho, hp, get_new_pattern_keeps_distinct
    (sample_globals [sample_pat_21] true true) sample_solve_11 sample_dp sample_ows 0 o p
    hreg ho hp⟩

/-! ## Registry uniqueness up to the order of the entries -/

theorem selected_entries_from_renumber (x : Int → ℚ) (ows : List OrderWidth) :
    ∀ k c : Nat,
      (((renumber ows c).enumFrom k).filter (fun ko => decide (x (ko.1 : Int) ≠ 0))).map
          (fun ko => (ko.2.master_row_num, x (ko.1 : Int)))
        = ((ows.enumFrom k).filter (fun ko => decide (x (ko.1 : Int) ≠ 0))).map
          (fun ko => (ko.2.master_row_num, x (ko.1 : Int))) := by
  induction ows with
  | nil => intro k c; rfl
  | cons o rest ih =>
    intro k c
    rw [renumber_cons, List.enumFrom_cons, List.enumFrom_cons]
    by_cases hk : x (k : Int) = 0
    · rw [List.filter_cons_of_neg (by simp [hk]), List.filter_cons_of_neg (by simp [hk])]
      exact ih (k + 1) (c + 1)
    · rw [List.filter_cons_of_pos (by simp [hk]), List.filter_cons_of_pos (by simp [hk]),
        List.map_cons, List.map_cons, ih (k + 1) (c + 1)]

theorem selected_entries_renumber (x : Int → ℚ) (ows : List OrderWidth) (c : Nat) :
    selected_entries x (renumber ows c) = selected_entries x ows :=
  selected_entries_from_renumber x ows 1 c

theorem canonical_selected (x : Int → ℚ) (ows : List OrderWidth)
    (hows : (ows.map (fun o => o.master_row_num)).Pairwise (fun a b => a < b)) :
    (selected_entries x ows).Pairwise (fun e1 e2 => e1.1 < e2.1) := by
  rw [← List.pairwise_map (f := Prod.fst) (R := fun a b : Int => a < b)]
  refine List.Pairwise.sublist ?_ hows
  have h1 : (selected_entries x ows).map Prod.fst
      = ((ows.enumFrom 1).filter (fun ko => decide (x (ko.1 : Int) ≠ 0))).map
          (fun ko => ko.2.master_row_num) := by
    unfold selected_entries
    rw [List.map_map]
    rfl
  have h2 : ows.map (fun o => o.master_row_num)
      = (ows.enumFrom 1).map (fun ko => ko.2.master_row_num) := by
    conv_lhs => rw [← List.enumFrom_map_snd 1 ows]
    rw [List.map_map]
    rfl
  rw [h1, h2]
  exact List.Sublist.map _ (List.filter_sublist _)

theorem generate_pattern_origin (max_pattern_width : ℚ) (solve : Solver)
    (ow_set : List OrderWidth) (iter_count : Int) (tol_flag : Bool) (g : Generated)
    (p : Pattern)
    (hg : generate_pattern max_pattern_width solve ow_set iter_count tol_flag = .ok g)
    (hp : g.pattern = some p) :
    ∃ x, entries p = selected_entries x ow_set := by
  cases hs : solve (subprob_call max_pattern_width ow_set tol_flag).lp
      (subprob_call max_pattern_width ow_set tol_flag).parm with
  | none =>
    rw [generate_pattern_fail max_pattern_width solve ow_set iter_count tol_flag hs] at hg
    cases hg
  | some x =>
    rw [generate_pattern_ok max_pattern_width solve ow_set iter_count tol_flag x hs] at hg
    simp only [Except.ok.injEq] at hg
    subst hg
    by_cases h0 : count_nonzero x ow_set.length = 0
    · simp [h0] at hp
    · simp only [h0, if_false, Option.some.injEq] at hp
      subst hp
      exact ⟨x, entries_filled x ow_set _ _ _⟩

theorem get_new_pattern_origin (g : Globals) (solve : Solver)
    (get_dp_solution : List OrderWidth → ℚ → List Pattern)
    (ow_set : List OrderWidth) (iter_count : Int) (o : Outcome) (p : Pattern)
    (h : get_new_pattern g solve get_dp_solution ow_set iter_count = .ok o)
    (hp : o.new_pat = some p) :
    (g.subintopt_flag = false ∧ p ∈ get_dp_solution ow_set g.max_pattern_width) ∨
    (g.subintopt_flag = true ∧ ∃ x, entries p = selected_entries x ow_set) := by
  by_cases hflag : g.subintopt_flag = true
  · right
    refine ⟨hflag, ?_⟩
    cases h1 : generate_pattern g.max_pattern_width solve ow_set iter_count false with
    | error e => simp [get_new_pattern, hflag, h1] at h
    | ok g1 =>
      have hs1 := generate_pattern_shape _ _ _ _ _ _ h1
      cases hd1 : check_duplicate g.PatternList g1.pattern with
      | error e => simp [get_new_pattern, hflag, h1, hd1] at h
      | ok d1 =>
        rw [get_new_pattern_ip_eq g solve get_dp_solution ow_set iter_count hflag g1 h1 d1
          hd1] at h
        by_cases hc : d1 = true ∧ g.workaround_flag = true
        · simp only [hc, and_self, if_true] at h
          cases h2 : generate_pattern g.max_pattern_width solve g1.ow_set iter_count true with
          | error e => rw [h2] at h; cases h
          | ok g2 =>
            rw [h2] at h
            dsimp only at h
            cases hd2 : check_duplicate g.PatternList g2.pattern with
            | error e => rw [hd2] at h; cases h
            | ok d2 =>
              rw [hd2] at h
              simp only [Except.ok.injEq] at h
              subst h
              cases d2 with
              | true => simp at hp
              | false =>
                simp only [Bool.false_eq_true, if_false] at hp
                obtain ⟨x, hx⟩ := generate_pattern_origin _ _ _ _ _ g2 p h2 hp
                rw [hs1.1, selected_entries_renumber] at hx
                exact ⟨x, hx⟩
        · simp only [hc, if_false, Except.ok.injEq] at h
          subst h
          cases d1 with
          | true => simp at hp
          | false =>
            simp only [Bool.false_eq_true, if_false] at hp
            exact generate_pattern_origin _ _ _ _ _ g1 p h1 hp
  · left
    have hf : g.subintopt_flag = false := by simpa using hflag
    refine ⟨hf, ?_⟩
    rcases dp_scan_cases g.PatternList (get_dp_solution ow_set g.max_pattern_width) with
      ⟨h1, _⟩ | ⟨pre, c, post, hdec, _, _, h4⟩
    · rw [get_new_pattern_dp_eq g solve get_dp_solution ow_set iter_count hf _ h1] at h
      simp only [Except.ok.injEq] at h
      subst h
      cases hp
    · rw [get_new_pattern_dp_eq g solve get_dp_solution ow_set iter_count hf _ h4] at h
      simp only [Except.ok.injEq] at h
      subst h
      simp only [Option.some.injEq] at hp
      rw [← hp, hdec]
      simp

theorem entries_eq_of_perm_canonical (a b : Pattern) (hperm : PermEqual a b)
    (ha : Canonical a) (hb : Canonical b) : entries a = entries b :=
  @List.eq_of_perm_of_sorted (Int × ℚ) (fun e1 e2 => e1.1 < e2.1)
    ⟨fun _ _ h1 h2 => absurd h1 (lt_asymm h2)⟩ _ _ hperm ha hb

/-- C5, as amended: when no two patterns of the registry are equal as multisets
of (row index, count) pairs, every registered pattern lists its entries in
strictly increasing row-index order, the master row indices of the order
widths increase strictly along the iteration order, and every candidate of
`get_dp_solution` lists its entries in strictly increasing row-index order,
then for every pattern that `get_new_pattern` returns (either strategy) the
registry with that pattern appended still has no two patterns equal as
multisets of (row index, count) pairs, and all its patterns again list their
entries in strictly increasing row-index order. -/
theorem get_new_pattern_keeps_perm_distinct (g : Globals) (solve : Solver)
    (get_dp_solution : List OrderWidth → ℚ → List Pattern)
    (ow_set : List OrderWidth) (iter_count : Int) (o : Outcome) (p : Pattern)
    (hreg : RegistryPermDistinct g.PatternList)
    (hcanon : ∀ q ∈ g.PatternList, Canonical q)
    (hows : (ow_set.map (fun w => w.master_row_num)).Pairwise (fun a b => a < b))
    (hdp : ∀ c ∈ get_dp_solution ow_set g.max_pattern_width, Canonical c)
    (h : get_new_pattern g solve get_dp_solution ow_set iter_count = .ok o)
    (hp : o.new_pat = some p) :
    RegistryPermDistinct (g.PatternList ++ [p]) ∧
    ∀ q ∈ g.PatternList ++ [p], Canonical q := by
  have hpc : Canonical p := by
    rcases get_new_pattern_origin g solve get_dp_solution ow_set iter_count o p h hp with
      ⟨_, hmem⟩ | ⟨_, x, hx⟩
    · exact hdp p hmem
    · unfold Canonical
      rw [hx]
      exact canonical_selected x ow_set hows
  have hnd := (get_new_pattern_frame g solve get_dp_solution ow_set iter_count o h).2.2 p hp
  constructor
  · unfold RegistryPermDistinct at hreg ⊢
    rw [List.pairwise_append]
    refine ⟨hreg, List.pairwise_singleton _ _, ?_⟩
    intro a ha b hb
    rw [List.mem_singleton] at hb
    subst hb
    intro hperm
    have he := entries_eq_of_perm_canonical a b hperm (hcanon a ha) hpc
    exact (check_duplicate_false_iff g.PatternList b).1 hnd
      ⟨a, ha, (sameEntries_iff_entries a b).2 he⟩
  · intro q hq
    rcases List.mem_append.1 hq with hq | hq
    · exact hcanon q hq
    · rw [List.mem_singleton] at hq
      subst hq
      exact hpc

theorem entries_sample_pat_1 : entries sample_pat_1 = [(1, 3)] := by
  simp [entries, sample_pat_1, List.range_succ]

theorem sample_returns_canon :
    ∃ o p, get_new_pattern (sample_globals [sample_pat_1] true true) sample_solve_11
        sample_dp_canon sample_ows 0 = .ok o ∧
      o.new_pat = some p ∧ entries p = [(1, 1), (2, 1)] := by
  obtain ⟨g1, p, h1, hp, he⟩ := sample_generate_first
  have hd : check_duplicate [sample_pat_1] g1.pattern = .ok false := by
    rw [hp]
    apply check_duplicate_entries_false
    intro q hq
    rw [List.mem_singleton] at hq
    subst hq
    rw [entries_sample_pat_1, he]
    simp
  refine ⟨_, p, get_new_pattern_ip_eq (sample_globals [sample_pat_1] true true)
    sample_solve_11 sample_dp_canon sample_ows 0 rfl g1 h1 false hd, ?_, he⟩
  simp [hp]

/-- C5 as amended, at a sample input: the registry holds (row 1, 3), the order
widths sit on rows 1 and 2, and the returned pattern (row 1, 1), (row 2, 1)
extends the registry. -/
theorem get_new_pattern_keeps_perm_distinct_witness :
    RegistryPermDistinct (sample_globals [sample_pat_1] true true).PatternList ∧
    (∀ q ∈ (sample_globals [sample_pat_1] true true).PatternList, Canonical q) ∧
    (sample_ows.map (fun w => w.master_row_num)).Pairwise (fun a b => a < b) ∧
    (∀ c ∈ sample_dp_canon sample_ows (sample_globals [sample_pat_1] true true).max_pattern_width,
      Canonical c) ∧
    ∃ o p, get_new_pattern (sample_globals [sample_pat_1] true true) sample_solve_11
        sample_dp_canon sample_ows 0 = .ok o ∧ o.new_pat = some p ∧
      RegistryPermDistinct ((sample_globals [sample_pat_1] true true).PatternList ++ [p]) := by
  have hreg : RegistryPermDistinct (sample_globals [sample_pat_1] true true).PatternList :=
    List.pairwise_singleton _ _
  have hcanon : ∀ q ∈ (sample_globals [sample_pat_1] true true).PatternList, Canonical q := by
    intro q hq
    rw [show (sample_globals [sample_pat_1] true true).PatternList = [sample_pat_1] from rfl,
      List.mem_singleton] at hq
    subst hq
    unfold Canonical
    rw [entries_sample_pat_1]
    exact List.pairwise_singleton _ _
  have hows : (sample_ows.map (fun w => w.master_row_num)).Pairwise (fun a b => a < b) := by
    simp [sample_ows]
  have hdp : ∀ c ∈ sample_dp_canon sample_ows
      (sample_globals [sample_pat_1] true true).max_pattern_width, Canonical c := by
    intro c hc
    rw [show sample_dp_canon sample_ows
        (sample_globals [sample_pat_1] true true).max_pattern_width = [sample_pat_12] from rfl,
      List.mem_singleton] at hc
    subst hc
    unfold Canonical
    rw [entries_sample_pat_12]
    simp
  obtain ⟨o, p, ho, hp, _⟩ := sample_returns_canon
  exact ⟨hreg, hcanon, hows, hdp, o, p, ho, hp,
    (get_new_pattern_keeps_perm_distinct (sample_globals [sample_pat_1] true true)
      sample_solve_11 sample_dp_canon sample_ows 0 o p hreg hcanon hows hdp ho hp).1⟩

/-! ## Null results under the generic-IP strategy -/

theorem get_new_pattern_ip_second_null (g : Globals) (solve : Solver)
    (get_dp_solution : List OrderWidth → ℚ → List Pattern)
    (ow_set : List OrderWidth) (iter_count : Int) (hflag : g.subintopt_flag = true)
    (g1 : Generated)
    (h1 : generate_pattern g.max_pattern_width solve ow_set iter_count false = .ok g1)
    (hd1 : check_duplicate g.PatternList g1.pattern = .ok true)
    (hw : g.workaround_flag = true) (g2 : Generated)
    (h2 : generate_pattern g.max_pattern_width solve g1.ow_set iter_count true = .ok g2)
    (hnull : g2.pattern = none) (q : Pattern) (rest : List Pattern)
    (hreg : g.PatternList = q :: rest) :
    get_new_pattern g solve get_dp_solution ow_set iter_count
      = .error Fault.null_dereference := by
  rw [get_new_pattern_ip_eq g solve get_dp_solution ow_set iter_count hflag g1 h1 true hd1]
  simp only [hw, and_self, if_true, h2, hnull, hreg, check_duplicate_null]

theorem selected_sample_flat :
    selected_entries sample_values_11 sample_ows_flat = [(1, 1), (2, 1)] := by
  simp [selected_entries, sample_values_11, sample_ows_flat, List.enumFrom, List.filter]

theorem count_sample_flat : count_nonzero sample_values_11 sample_ows_flat.length ≠ 0 := by
  intro h
  have := (count_nonzero_eq_zero _ _).1 h 1 (by omega) (by simp [sample_ows_flat])
  simp [sample_values_11] at this

/-- C3, the failing runs: with the generic-IP strategy and a registry that holds
one pattern, (1) a first solve that leaves every column at zero makes
`get_new_pattern` end in a null dereference instead of returning that result,
workaround off; (2) a first solve whose result is registered, the workaround
on, and a second solve that leaves every column at zero make it end in a
null dereference instead of returning null. -/
theorem get_new_pattern_ip_null_faults :
    get_new_pattern (sample_globals [sample_pat_21] false true) sample_solve_zero sample_dp
        sample_ows_flat 0 = .error Fault.null_dereference ∧
    get_new_pattern (sample_globals [sample_pat_12] true true) sample_solve_alt sample_dp
        sample_ows_flat 0 = .error Fault.null_dereference := by
  constructor
  · obtain ⟨g1, h1, hnull⟩ := sample_generate_zero sample_ows_flat false
    exact get_new_pattern_ip_null (sample_globals [sample_pat_21] false true)
      sample_solve_zero sample_dp sample_ows_flat 0 rfl g1 h1 hnull sample_pat_21 [] rfl
  · have hx1 : sample_solve_alt (subprob_call 10 sample_ows_flat false).lp
        (subprob_call 10 sample_ows_flat false).parm = some sample_values_11 := by
      simp [sample_solve_alt, subprob_call, glp_init_iocp]
    obtain ⟨g1, p1, h1, hp1, he1⟩ := generate_pattern_some 10 sample_solve_alt
      sample_ows_flat 0 false sample_values_11 hx1 count_sample_flat
    have hs1 := generate_pattern_shape _ _ _ _ _ _ h1
    have hd1 : check_duplicate (sample_globals [sample_pat_12] true true).PatternList
        g1.pattern = .ok true := by
      rw [hp1]; exact sample_dup_12 p1 (he1.trans selected_sample_flat)
    have hx2 : sample_solve_alt (subprob_call 10 g1.ow_set true).lp
        (subprob_call 10 g1.ow_set true).parm = some (fun _ => 0) := by
      simp [sample_solve_alt, subprob_call, glp_init_iocp]
    have h2 := generate_pattern_ok 10 sample_solve_alt g1.ow_set 0 true (fun _ => 0) hx2
    rw [if_pos ((count_nonzero_eq_zero _ _).2 (fun _ _ _ => rfl))] at h2
    exact get_new_pattern_ip_second_null (sample_globals [sample_pat_12] true true)
      sample_solve_alt sample_dp sample_ows_flat 0 rfl g1 h1 hd1 rfl _ h2 rfl
      sample_pat_12 [] rfl

end Cspsol
